import Mathlib

/-!
# Verification of the cv-explorer résumé search pipeline

This file gives a shallow embedding, in Lean 4, of the core query-to-ranked-
candidates pipeline of the cv-explorer repository:

* `src/lib/ai/vectors.ts` — the content chunker (`chunkText`);
* `src/lib/actions/resumes.ts` — ingestion (`addResume`), section-aware
  content reduction (`extractResumeContent` and its section extractors), and
  the semantic search record assembly (`semanticSearchResumes`);
* `src/app/api/chat/route.ts` — the `searchResumes` orchestrator tool:
  criteria-enriched query building, raw-score extraction, match scoring
  (`generateMatchAnalysis`) and result aggregation.

JavaScript strings are modelled as `List Char`; JS numbers occurring in
integer positions are modelled as `ℤ`/`ℕ`, and fractional scores as `ℚ`.
Calls to external LLMs and to the vector store are modelled as oracle
parameters (an `Option`-valued outcome for a fallible structured-extraction
call, an explicit list of retrieved documents for the store).
-/

namespace CvExplorer

/-! ## JavaScript string primitives -/

/-- The JavaScript `\s` / `String.prototype.trim` whitespace class
(ASCII whitespace plus the Unicode space separators used by JS). -/
def isJsWs (c : Char) : Bool :=
  c = ' ' || c = '\t' || c = '\n' || c = '\r' ||
  c.toNat = 0x0b || c.toNat = 0x0c || c.toNat = 0xa0 || c.toNat = 0x1680 ||
  (0x2000 <= c.toNat && c.toNat <= 0x200a) || c.toNat = 0x2028 ||
  c.toNat = 0x2029 || c.toNat = 0x202f || c.toNat = 0x205f ||
  c.toNat = 0x3000 || c.toNat = 0xfeff

/-- JS `String.prototype.trim`: strip leading and trailing whitespace. -/
def jsTrim (l : List Char) : List Char :=
  ((l.dropWhile isJsWs).reverse.dropWhile isJsWs).reverse

/-- JS `String.prototype.slice(start, end)` with the usual clamping of both
endpoints into `[0, length]` (negative values count from the end). -/
def jsSlice (l : List Char) (s e : ℤ) : List Char :=
  let len : ℤ := l.length
  let s' : ℤ := if s < 0 then max (len + s) 0 else min s len
  let e' : ℤ := if e < 0 then max (len + e) 0 else min e len
  (l.take e'.toNat).drop s'.toNat

/-- JS `String.prototype.substring(start, end)`: endpoints clamped into
`[0, length]` and swapped when out of order. -/
def jsSubstring (l : List Char) (s e : ℤ) : List Char :=
  let len : ℤ := l.length
  let s' : ℤ := min (max s 0) len
  let e' : ℤ := min (max e 0) len
  (l.take (max s' e').toNat).drop (min s' e').toNat

/-- JS `String.prototype.lastIndexOf(c, pos)` for a single character: the
greatest index `i ≤ min (max pos 0) (length - 1)` holding `c`, else `-1`. -/
def jsLastIndexOf (l : List Char) (c : Char) (pos : ℤ) : ℤ :=
  let p : ℕ := (max pos 0).toNat
  match ((List.range l.length).filter
      (fun i => decide (i ≤ p) && decide (l.getD i ' ' = c))).getLast? with
  | some i => (i : ℤ)
  | none => -1

/-- JS `Math.round` on an exact rational: round half toward `+∞`. -/
def jsRound (q : ℚ) : ℤ := ⌊q + 1 / 2⌋

/-! ## `chunkText` (src/lib/ai/vectors.ts, lines 85–127) -/

/-- The start-position update of the `chunkText` loop
(`start = Math.max(start + 1, end - overlap)` at vectors.ts line 123). -/
def chunkNextStart (start : ℕ) (e overlap : ℤ) : ℤ :=
  max ((start : ℤ) + 1) (e - overlap)

/-- The chunk-end selection of one `chunkText` iteration: candidate end
`start + maxChunkSize`; when this is not past the end of the text, prefer the
last sentence terminator beyond `start + 0.7 * maxChunkSize`, else the last
space beyond `start + 0.5 * maxChunkSize` (vectors.ts lines 94–115).
The `0.7`/`0.5` comparisons are exact rational comparisons, written over `ℤ`. -/
def chunkEnd (text : List Char) (maxChunkSize : ℤ) (start : ℕ) : ℤ :=
  let e0 : ℤ := (start : ℤ) + maxChunkSize
  if e0 < (text.length : ℤ) then
    let sentenceEnd := jsLastIndexOf text '.' e0
    let questionEnd := jsLastIndexOf text '?' e0
    let exclamationEnd := jsLastIndexOf text '!' e0
    let bestEnd := max sentenceEnd (max questionEnd exclamationEnd)
    if 10 * start + 7 * maxChunkSize < 10 * bestEnd then bestEnd + 1
    else
      let spaceIndex := jsLastIndexOf text ' ' e0
      if 10 * start + 5 * maxChunkSize < 10 * spaceIndex then spaceIndex
      else e0
  else e0

/-- The `while (start < text.length)` loop of `chunkText`
(vectors.ts lines 93–124): cut a chunk, trim it, keep it when non-empty,
and advance `start` by `chunkNextStart`. -/
def chunkLoop (text : List Char) (maxChunkSize overlap : ℤ) (start : ℕ) :
    List (List Char) :=
  if h : start < text.length then
    let e := chunkEnd text maxChunkSize start
    let chunk := jsTrim (jsSlice text start e)
    let rest := chunkLoop text maxChunkSize overlap
      (chunkNextStart start e overlap).toNat
    if chunk.isEmpty then rest else chunk :: rest
  else []
termination_by text.length - start
decreasing_by
  have hle : (start : ℤ) + 1 ≤ chunkNextStart start (chunkEnd text maxChunkSize start) overlap :=
    le_max_left _ _
  omega

/-- `chunkText(text, maxChunkSize = 2000, overlap = 200)`
(vectors.ts lines 85–127). -/
def chunkText (text : List Char) (maxChunkSize : ℤ := 2000)
    (overlap : ℤ := 200) : List (List Char) :=
  if text.isEmpty || decide ((text.length : ℤ) ≤ maxChunkSize) then [text]
  else chunkLoop text maxChunkSize overlap 0

/-! ## JavaScript object values and property lists

JS objects built by the repository are modelled as association lists of
properties in insertion order; `objValue` implements property lookup where a
later binding of the same key overrides an earlier one, which is exactly the
semantics of object-literal spread (`{ a, ...b }`). -/

/-- A JavaScript value as stored in resume metadata. -/
inductive JsVal where
  | str : List Char → JsVal
  | num : ℚ → JsVal
  | arr : List JsVal → JsVal
  | obj : List (String × JsVal) → JsVal
  | bool : Bool → JsVal
  | undef : JsVal
  | null : JsVal

/-- A JS object: properties in insertion order (later bindings override). -/
abbrev Props := List (String × JsVal)

/-- Property lookup: the last binding of a key wins, as for object literals
with spreads. `none` means the key is entirely absent. -/
def objValue (props : Props) (k : String) : Option JsVal :=
  props.foldl (fun acc p => if p.1 = k then some p.2 else acc) none

/-- Read a property as a string, when it is one. -/
def objStr (props : Props) (k : String) : Option (List Char) :=
  match objValue props k with
  | some (.str s) => some s
  | _ => none

/-! ## The raw-score regex of the orchestrator

`route.ts` line 223 extracts a similarity score from the metadata summary with
`summary.match(/Score: ([\d.]+)/)`, and line 243 strips the prefix with
`summary.replace(/Score: [\d.]+ - /, '')`. -/

/-- The `[\d.]` character class. -/
def isDigitDot (c : Char) : Bool := c.isDigit || c = '.'

/-- The capture group of the first match of `/Score: ([\d.]+)/`, scanning left
to right. (The run after `Score: ` is maximal; since `[\d.]` never matches the
characters that follow the group in the pattern, greedy matching with
backtracking coincides with maximal munch.) -/
def scoreCapture : List Char → Option (List Char)
  | [] => none
  | 'S' :: 'c' :: 'o' :: 'r' :: 'e' :: ':' :: ' ' :: rest =>
    let run := rest.takeWhile isDigitDot
    if run.isEmpty then scoreCapture rest else some run
  | _ :: t => scoreCapture t

/-- Decimal digits to a natural number. -/
def digitsToNat (l : List Char) : ℕ :=
  l.foldl (fun a c => 10 * a + (c.toNat - 48)) 0

/-- JS `parseFloat` restricted to the strings captured by `[\d.]+`: an
optional integer part, an optional dot, an optional fraction part; anything
from a second dot on is ignored; no digits at all gives `NaN` (`none`). The
value `d1.d2` is the exact rational `(d1·10^k + d2) / 10^k`. -/
def jsParseFloat (l : List Char) : Option ℚ :=
  let d1 := l.takeWhile Char.isDigit
  match l.drop d1.length with
  | '.' :: r2 =>
    let d2 := r2.takeWhile Char.isDigit
    if d1.isEmpty && d2.isEmpty then none
    else some (mkRat (digitsToNat d1 * 10 ^ d2.length + digitsToNat d2)
      (10 ^ d2.length))
  | _ => if d1.isEmpty then none else some (mkRat (digitsToNat d1) 1)

/-- One step of `summary.replace(/Score: [\d.]+ - /, '')`: when the pattern
matches at the head of the list, return the remainder after the match. -/
def scorePrefixMatchAt : List Char → Option (List Char)
  | 'S' :: 'c' :: 'o' :: 'r' :: 'e' :: ':' :: ' ' :: rest =>
    let run := rest.takeWhile isDigitDot
    if run.isEmpty then none
    else
      match rest.dropWhile isDigitDot with
      | ' ' :: '-' :: ' ' :: tail => some tail
      | _ => none
  | _ => none

/-- `summary.replace(/Score: [\d.]+ - /, '')`: remove the first match. -/
def stripScorePrefix : List Char → List Char
  | [] => []
  | c :: t =>
    match scorePrefixMatchAt (c :: t) with
    | some tail => tail
    | none => c :: stripScorePrefix t

/-! ## JS numbers that may be `NaN`

`parseFloat` can produce `NaN` (e.g. on the capture `"."`), and `NaN`
propagates through arithmetic; `none` models `NaN`. -/

/-- A JS number: `none` is `NaN`. -/
abbrev JsNum := Option ℚ

/-- Addition on JS numbers (`NaN` absorbs). -/
def jsnAdd (a b : JsNum) : JsNum := Option.map₂ (· + ·) a b

/-- `Math.round` on a JS number; `Math.round NaN = NaN`. -/
def jsnRound (a : JsNum) : JsNum := a.map (fun q => (jsRound q : ℚ))

/-- `Math.min c` against a JS number. -/
def jsnMinC (c : ℚ) (a : JsNum) : JsNum := a.map (fun q => min c q)

/-- `Math.max c` against a JS number. -/
def jsnMaxC (c : ℚ) (a : JsNum) : JsNum := a.map (fun q => max c q)

/-- Multiplication by a constant. -/
def jsnMulC (c : ℚ) (a : JsNum) : JsNum := a.map (fun q => q * c)

/-- Division by a (positive) integer count. -/
def jsnDivNat (a : JsNum) (n : ℕ) : JsNum := a.map (fun q => q / (n : ℚ))

/-- `reduce((sum, r) => sum + r, 0)` over JS numbers. -/
def jsnSum (l : List JsNum) : JsNum := l.foldl jsnAdd (some 0)

/-! ## Match scoring (`generateMatchAnalysis`, route.ts lines 68–131) -/

/-- The `details` object of a match analysis: seven optional category
sub-scores plus strengths and concerns. -/
structure MatchDetails where
  positionMatch : Option ℚ := none
  seniorityMatch : Option ℚ := none
  skillsMatch : Option ℚ := none
  experienceMatch : Option ℚ := none
  educationMatch : Option ℚ := none
  locationMatch : Option ℚ := none
  softSkillsMatch : Option ℚ := none
  keyStrengths : List (List Char)
  potentialConcerns : List (List Char)
deriving DecidableEq

/-- The result object of `generateMatchAnalysis`. -/
structure MatchAnalysis where
  percentage : JsNum
  explanation : List Char
  details : MatchDetails
deriving DecidableEq

/-- `generateMatchAnalysis` (route.ts lines 68–131). The structured-scoring
LLM call is an oracle: `llmResult = some a` models a successful
`generateObject` call returning `a`; `none` models a thrown error. On failure
the fallback score is `Math.round(Math.min(100, Math.max(0, semanticScore *
100)))` with a generic explanation and no category sub-scores. -/
def generateMatchAnalysis (llmResult : Option MatchAnalysis)
    (semanticScore : JsNum) : MatchAnalysis :=
  match llmResult with
  | some a => a
  | none =>
    let fallbackPercentage := jsnMinC 100 (jsnMaxC 0 (jsnMulC 100 semanticScore))
    { percentage := jsnRound fallbackPercentage
      explanation := "Match based on semantic similarity to your search criteria.".data
      details :=
        { keyStrengths := ["Semantic similarity to search query".data]
          potentialConcerns := ["Detailed analysis unavailable".data] } }

/-! ## Search criteria and the enriched query (route.ts lines 8–31, 158–216) -/

structure SkillCriterion where
  name : List Char
  category : Option (List Char) := none
  minSeniority : Option (List Char) := none
deriving DecidableEq

structure ExperienceCriteria where
  minYears : Option ℤ := none
  maxYears : Option ℤ := none
  companies : Option (List (List Char)) := none
  industries : Option (List (List Char)) := none
deriving DecidableEq

structure EducationCriteria where
  degree : Option (List Char) := none
  field : Option (List Char) := none
  institution : Option (List Char) := none
deriving DecidableEq

structure PositionCriteria where
  title : Option (List Char) := none
  seniority : Option (List Char) := none
deriving DecidableEq

structure SearchCriteria where
  position : Option PositionCriteria := none
  skills : Option (List SkillCriterion) := none
  experience : Option ExperienceCriteria := none
  education : Option EducationCriteria := none
  location : Option (List Char) := none
  softSkills : Option (List (List Char)) := none
deriving DecidableEq

/-- JS truthiness of an optional string (`undefined` and `""` are falsy). -/
def strTruthy : Option (List Char) → Bool
  | some s => !s.isEmpty
  | none => false

/-- JS truthiness of `xs?.length` (absent or empty array is falsy). -/
def lenTruthy {α : Type} : Option (List α) → Bool
  | some l => !l.isEmpty
  | none => false

/-- JS truthiness of an optional number (`undefined`, `0` are falsy). -/
def numTruthy : Option ℤ → Bool
  | some n => n ≠ 0
  | none => false

/-- Render one skill for the enriched query (route.ts lines 179–184):
`name`, then ` (<minSeniority> level)` when present, then ` [<category>]`. -/
def skillText (s : SkillCriterion) : List Char :=
  s.name
    ++ (if strTruthy s.minSeniority then
          " (".data ++ s.minSeniority.getD [] ++ " level)".data
        else [])
    ++ (if strTruthy s.category then
          " [".data ++ s.category.getD [] ++ "]".data
        else [])

/-- The `enhancedQueryParts` array (route.ts lines 168–210): one entry per
present (truthy) criteria field, in the source's fixed order. -/
def enhancedQueryParts (c : SearchCriteria) : List (List Char) :=
  (if strTruthy (c.position.bind (·.title)) then
    ["position: ".data ++ (c.position.bind (·.title)).getD []] else []) ++
  (if strTruthy (c.position.bind (·.seniority)) then
    ["seniority: ".data ++ (c.position.bind (·.seniority)).getD []] else []) ++
  (if lenTruthy c.skills then
    ["skills: ".data ++
      List.intercalate ", ".data ((c.skills.getD []).map skillText)] else []) ++
  (if numTruthy (c.experience.bind (·.minYears)) then
    ["minimum ".data ++ (Int.repr ((c.experience.bind (·.minYears)).getD 0)).data
      ++ " years experience".data] else []) ++
  (if lenTruthy (c.experience.bind (·.companies)) then
    ["companies: ".data ++
      List.intercalate ", ".data ((c.experience.bind (·.companies)).getD [])] else []) ++
  (if strTruthy (c.education.bind (·.degree)) then
    ["education: ".data ++ (c.education.bind (·.degree)).getD []] else []) ++
  (if strTruthy (c.education.bind (·.field)) then
    ["field: ".data ++ (c.education.bind (·.field)).getD []] else []) ++
  (if strTruthy c.location then
    ["location: ".data ++ c.location.getD []] else []) ++
  (if lenTruthy c.softSkills then
    ["soft skills: ".data ++ List.intercalate ", ".data (c.softSkills.getD [])] else [])

/-- Whether any criteria field would contribute an enriched-query part:
the disjunction of the nine guard conditions above. -/
def criteriaHasEnrichment (c : SearchCriteria) : Bool :=
  strTruthy (c.position.bind (·.title)) ||
  strTruthy (c.position.bind (·.seniority)) ||
  lenTruthy c.skills ||
  numTruthy (c.experience.bind (·.minYears)) ||
  lenTruthy (c.experience.bind (·.companies)) ||
  strTruthy (c.education.bind (·.degree)) ||
  strTruthy (c.education.bind (·.field)) ||
  strTruthy c.location ||
  lenTruthy c.softSkills

/-- The query string actually passed to retrieval (route.ts lines 158–216):
starts as the raw query; replaced by the ` | `-joined enhanced parts only when
structured search is on, parsing succeeded, and at least one part exists. -/
def computeSearchQuery (useStructuredSearch : Bool)
    (parsedCriteria : Option SearchCriteria) (query : List Char) : List Char :=
  if useStructuredSearch then
    match parsedCriteria with
    | none => query
    | some c =>
      let parts := enhancedQueryParts c
      if 0 < parts.length then List.intercalate " | ".data parts else query
  else query

/-! ## Retrieved records and per-candidate scoring (route.ts lines 218–250) -/

/-- A record as returned by `semanticSearchResumes` and consumed by the
orchestrator. -/
structure RetrievedResume where
  id : List Char
  document : List Char
  cmetadata : Props

/-- `resume.cmetadata?.summary` as a string (`none` when the summary property
is absent; in every record this repository constructs, it is a string). -/
def summaryStr (r : RetrievedResume) : Option (List Char) :=
  match objValue r.cmetadata "summary" with
  | some (.str s) => some s
  | _ => none

/-- `resume.cmetadata?.<k> || dflt`: the string property when present and
truthy (non-empty), else the default. -/
def metaStrOr (r : RetrievedResume) (k : String) (dflt : List Char) :
    List Char :=
  match objValue r.cmetadata k with
  | some (.str s) => if s.isEmpty then dflt else s
  | _ => dflt

/-- The raw semantic score the orchestrator recovers from the stored summary
(route.ts lines 222–224): the first `/Score: ([\d.]+)/` capture fed to
`parseFloat`, or `0` when the regex does not match. -/
def extractRawScore (summary : Option (List Char)) : JsNum :=
  match summary.bind scoreCapture with
  | some cap => jsParseFloat cap
  | none => some 0

/-- A scored candidate as assembled at route.ts lines 239–249. -/
structure ScoredCandidate where
  id : List Char
  name : List Char
  title : List Char
  summary : List Char
  content : List Char
  confidence : JsNum
  rawScore : JsNum
  matchExplanation : List Char
  matchDetails : MatchDetails

/-- Score one retrieved resume (the body of the `Promise.all` callback,
route.ts lines 221–250). `llmOutcome` is the oracle outcome of this
candidate's structured-scoring call. The stored document is re-parsed only to
be embedded in the LLM prompt, so it does not appear in the result beyond the
truncated `content` field. -/
def scoreCandidate (llmOutcome : Option MatchAnalysis) (r : RetrievedResume) :
    ScoredCandidate :=
  let rawScore := extractRawScore (summaryStr r)
  let matchAnalysis := generateMatchAnalysis llmOutcome rawScore
  { id := r.id
    name := metaStrOr r "name" "Unknown".data
    title := metaStrOr r "title" "No title".data
    summary := ((summaryStr r).map stripScorePrefix).getD "No summary".data
    content := r.document.take 500 ++ "...".data
    confidence := matchAnalysis.percentage
    rawScore := rawScore
    matchExplanation := matchAnalysis.explanation
    matchDetails := matchAnalysis.details }

/-! ## The `Promise.all` fan-out/fan-in

`Promise.all(resumes.map(cb))` starts one task per index and assembles the
results by index, regardless of the order in which the tasks complete. The
completion schedule is modelled as the list of indices in completion order;
`taskLog` is the log of `(index, result)` pairs in that order, and `joinAll`
reads the results back slot by slot. -/

/-- The completion log of the scoring tasks under a given completion order. -/
def taskLog {α : Type} (order : List ℕ) (f : ℕ → α) : List (ℕ × α) :=
  order.map fun i => (i, f i)

/-- `Promise.all`'s join: slot `i` of the result is task `i`'s logged result
(`none` if task `i` never completed). -/
def joinAll {α : Type} (n : ℕ) (log : List (ℕ × α)) : List (Option α) :=
  (List.range n).map fun i => log.lookup i

/-! ## The `searchResumes` orchestrator (route.ts lines 151–265) -/

/-- The orchestrator's result object (route.ts lines 257–264). -/
structure SearchResult where
  totalResults : ℕ
  averageConfidence : JsNum
  query : List Char
  originalQuery : List Char
  parsedCriteria : Option SearchCriteria
  candidates : List ScoredCandidate

/-- The `searchResumes` tool body (route.ts lines 158–264). Oracles:
`parsedOutcome` is the result of `parseSearchQuery` (`none` both when
structured search is off and when parsing failed), and `llm i` is the outcome
of the structured-scoring call for the `i`-th retrieved resume. -/
def searchResumesExecute (useStructuredSearch : Bool)
    (parsedOutcome : Option SearchCriteria) (llm : ℕ → Option MatchAnalysis)
    (query : List Char) (resumes : List RetrievedResume) : SearchResult :=
  let parsedCriteria :=
    if useStructuredSearch then parsedOutcome else none
  let searchQuery := computeSearchQuery useStructuredSearch parsedOutcome query
  let resultsWithConfidence :=
    resumes.mapIdx fun i r => scoreCandidate (llm i) r
  let avgConfidence : JsNum :=
    if 0 < resultsWithConfidence.length then
      jsnRound (jsnDivNat
        (resultsWithConfidence.foldl (fun s r => jsnAdd s r.confidence) (some 0))
        resultsWithConfidence.length)
    else some 0
  { totalResults := resultsWithConfidence.length
    averageConfidence := avgConfidence
    query := searchQuery
    originalQuery := query
    parsedCriteria := parsedCriteria
    candidates := resultsWithConfidence }

/-! ## Claims C1, C3, C4, C5, C7, C8 -/

/-- The spec's fallback formula, written from the spec's words:
`round(clamp(semanticScore * 100, 0, 100))`. -/
def specFallbackPercentage (s : ℚ) : ℤ := jsRound (max 0 (min (s * 100) 100))

instance : Inhabited RetrievedResume := ⟨⟨[], [], []⟩⟩

/-! ## Case-insensitive regex matching primitives

The section extractors of `resumes.ts` call `content.search(pattern)` with
case-insensitive alternation patterns over ASCII literals. `jsSearchAux`
models `search`: the least index whose suffix matches, `none` for `-1`.
Each pattern is modelled by a decidable match-at-position predicate; for
each of them, greedy `\s+` munching coincides with maximal munch because no
alternative continues with a whitespace-class character. -/

/-- ASCII lowercasing (the patterns are ASCII-only, so the `/i` flag reduces
to this). -/
def lowerChar (c : Char) : Char :=
  if 'A' ≤ c ∧ c ≤ 'Z' then Char.ofNat (c.toNat + 32) else c

/-- Does `l` start with the (lowercase) literal `pat`, case-insensitively? -/
def icasePrefix : List Char → List Char → Bool
  | [], _ => true
  | _ :: _, [] => false
  | p :: ps, c :: cs => (lowerChar c = p) && icasePrefix ps cs

/-- `\s+` followed by the (lowercase) literal `pat`. -/
def wsPlusThen (pat : List Char) (l : List Char) : Bool :=
  !(l.takeWhile isJsWs).isEmpty && icasePrefix pat (l.dropWhile isJsWs)

/-- `String.prototype.search`: index of the leftmost position whose suffix
matches, else `none` (the source compares against `-1`). -/
def jsSearchAux (m : List Char → Bool) : List Char → Option ℕ
  | [] => if m [] then some 0 else none
  | c :: t => if m (c :: t) then some 0 else (jsSearchAux m t).map (· + 1)

/-- `/(?:work\s+)?experience|employment|professional\s+experience|career/i`
at a position. -/
def expPat1At (l : List Char) : Bool :=
  icasePrefix "experience".data l ||
  (icasePrefix "work".data l && wsPlusThen "experience".data (l.drop 4)) ||
  icasePrefix "employment".data l ||
  (icasePrefix "professional".data l && wsPlusThen "experience".data (l.drop 12)) ||
  icasePrefix "career".data l

/-- `/(?:work\s+)?history|employment\s+history/i` at a position. -/
def expPat2At (l : List Char) : Bool :=
  icasePrefix "history".data l ||
  (icasePrefix "work".data l && wsPlusThen "history".data (l.drop 4)) ||
  (icasePrefix "employment".data l && wsPlusThen "history".data (l.drop 10))

/-- `/positions?\s+held/i` at a position. -/
def expPat3At (l : List Char) : Bool :=
  (icasePrefix "positions".data l && wsPlusThen "held".data (l.drop 9)) ||
  (icasePrefix "position".data l && wsPlusThen "held".data (l.drop 8))

/-- The `[\s\-–—]` separator class of the year-range date pattern. -/
def isSepChar (c : Char) : Bool :=
  isJsWs c || c = '-' || c.toNat = 0x2013 || c.toNat = 0x2014

/-- `(19|20)\d{2}` at a position. -/
def yearAt : List Char → Bool
  | a :: b :: c :: d :: _ =>
    ((a = '1' && b = '9') || (a = '2' && b = '0')) && c.isDigit && d.isDigit
  | _ => false

/-- `/(19|20)\d{2}[\s\-–—]+(?:present|current|(19|20)\d{2})/i` at a
position. -/
def datePatAt (l : List Char) : Bool :=
  yearAt l &&
  (let r := l.drop 4
   !(r.takeWhile isSepChar).isEmpty &&
   (let r2 := r.dropWhile isSepChar
    icasePrefix "present".data r2 || icasePrefix "current".data r2 || yearAt r2))

/-- `/education|academic|degree|university|college|school/i` at a position. -/
def eduPat1At (l : List Char) : Bool :=
  icasePrefix "education".data l || icasePrefix "academic".data l ||
  icasePrefix "degree".data l || icasePrefix "university".data l ||
  icasePrefix "college".data l || icasePrefix "school".data l

/-- `/bachelor|master|phd|doctorate|certificate|diploma/i` at a position. -/
def eduPat2At (l : List Char) : Bool :=
  icasePrefix "bachelor".data l || icasePrefix "master".data l ||
  icasePrefix "phd".data l || icasePrefix "doctorate".data l ||
  icasePrefix "certificate".data l || icasePrefix "diploma".data l

/-- Is the head of `l` (lowercased) one of `cs`? -/
def headIn (cs : List Char) : List Char → Bool
  | c :: _ => lowerChar c ∈ cs
  | [] => false

/-- `x\.?[sa]\.?` at a position (`x` is `b` or `m`); the trailing optional
dot constrains nothing. -/
def letterDotSA (x : Char) (l : List Char) : Bool :=
  match l with
  | c :: r =>
    lowerChar c = x &&
    (match r with
     | '.' :: r2 => headIn ['s', 'a'] r2
     | _ => headIn ['s', 'a'] r)
  | [] => false

/-- `ph\.?d\.?` at a position. -/
def phdAt (l : List Char) : Bool :=
  match l with
  | c1 :: c2 :: r =>
    lowerChar c1 = 'p' && lowerChar c2 = 'h' &&
    (match r with
     | '.' :: r2 => headIn ['d'] r2
     | _ => headIn ['d'] r)
  | _ => false

/-- `/b\.?[sa]\.?|m\.?[sa]\.?|ph\.?d\.?/i` at a position. -/
def eduPat3At (l : List Char) : Bool :=
  letterDotSA 'b' l || letterDotSA 'm' l || phdAt l

/-- `/skills|competencies|technologies|technical\s+skills/i` at a position. -/
def skillsPat1At (l : List Char) : Bool :=
  icasePrefix "skills".data l || icasePrefix "competencies".data l ||
  icasePrefix "technologies".data l ||
  (icasePrefix "technical".data l && wsPlusThen "skills".data (l.drop 9))

/-- `/programming|software|tools|languages/i` at a position. -/
def skillsPat2At (l : List Char) : Bool :=
  icasePrefix "programming".data l || icasePrefix "software".data l ||
  icasePrefix "tools".data l || icasePrefix "languages".data l

/-- `/proficient|experience\s+with|familiar\s+with/i` at a position. -/
def skillsPat3At (l : List Char) : Bool :=
  icasePrefix "proficient".data l ||
  (icasePrefix "experience".data l && wsPlusThen "with".data (l.drop 10)) ||
  (icasePrefix "familiar".data l && wsPlusThen "with".data (l.drop 8))

/-! ## `extractResumeContent` and its helpers (resumes.ts lines 503–649) -/

/-- `extractSection(content, start, maxLength)` (lines 576–578):
`content.substring(start, Math.min(start + maxLength, content.length)).trim()`. -/
def extractSection (content : List Char) (start maxLength : ℕ) : List Char :=
  jsTrim (jsSubstring content start
    (min ((start : ℤ) + maxLength) content.length))

/-- `extractExperienceSection` (lines 583–609): the three header patterns in
order, then the year-range date fallback starting 200 characters before the
first date match; 4,000-character cap. -/
def extractExperienceSection (content : List Char) : List Char :=
  match jsSearchAux expPat1At content with
  | some m => extractSection content m 4000
  | none =>
    match jsSearchAux expPat2At content with
    | some m => extractSection content m 4000
    | none =>
      match jsSearchAux expPat3At content with
      | some m => extractSection content m 4000
      | none =>
        match jsSearchAux datePatAt content with
        | some i => extractSection content (i - 200) 4000
        | none => []

/-- `extractEducationSection` (lines 614–629): three patterns in order,
3,000-character cap. -/
def extractEducationSection (content : List Char) : List Char :=
  match jsSearchAux eduPat1At content with
  | some m => extractSection content m 3000
  | none =>
    match jsSearchAux eduPat2At content with
    | some m => extractSection content m 3000
    | none =>
      match jsSearchAux eduPat3At content with
      | some m => extractSection content m 3000
      | none => []

/-- `extractSkillsSection` (lines 634–649): three patterns in order,
3,000-character cap. -/
def extractSkillsSection (content : List Char) : List Char :=
  match jsSearchAux skillsPat1At content with
  | some m => extractSection content m 3000
  | none =>
    match jsSearchAux skillsPat2At content with
    | some m => extractSection content m 3000
    | none =>
      match jsSearchAux skillsPat3At content with
      | some m => extractSection content m 3000
      | none => []

/-- `.replace(/\s+/g, ' ')`: collapse each maximal whitespace run to one
space. The flag records whether the previous character was part of a
whitespace run already emitted as a single space. -/
def collapseWsAux (prevWs : Bool) : List Char → List Char
  | [] => []
  | c :: t =>
    if isJsWs c then
      if prevWs then collapseWsAux true t else ' ' :: collapseWsAux true t
    else c :: collapseWsAux false t

/-- `.replace(/\s+/g, ' ')`. -/
def collapseWs (l : List Char) : List Char := collapseWsAux false l

/-- `.replace(/[^\x20-\x7E\n\r\t]/g, '')`: keep printable ASCII plus
newline, carriage return and tab. -/
def keepAsciiChar (c : Char) : Bool :=
  (0x20 ≤ c.toNat && c.toNat ≤ 0x7e) || c = '\n' || c = '\r' || c = '\t'

/-- `.replace(/(.)\1{10,}/g, '$1$1$1')`: collapse each maximal run of 11 or
more equal characters to three. (After the whitespace pass no newline is
left, so the regex-dot-excludes-newline subtlety does not arise.) -/
def collapseRepeats : List Char → List Char
  | [] => []
  | c :: t =>
    let run := t.takeWhile (· = c)
    let rest := t.dropWhile (· = c)
    (if 10 ≤ run.length then [c, c, c] else c :: run) ++ collapseRepeats rest
termination_by l => l.length
decreasing_by
  have := (List.dropWhile_sublist (l := t) (p := (· = c))).length_le
  simp only [List.length_cons]
  omega

/-- The PDF-artifact cleanup of `extractResumeContent` (lines 521–525). -/
def cleanResumeContent (content : List Char) : List Char :=
  jsTrim (collapseRepeats ((collapseWs content).filter keepAsciiChar))

/-- The `sections` array built during section-aware extraction
(lines 529–557): for each located non-empty section, a header entry and the
capped section body (personal 1,000; experience 4,000 at extraction then
`substring(0, 5000)`; education 3,000 at extraction then
`substring(0, 1500)`; skills 3,000 then `substring(0, 1500)`). -/
def resumeSections (cleanedContent : List Char) : List (List Char) :=
  (let personalInfoSection := extractSection cleanedContent 0 1000
   if personalInfoSection.isEmpty then []
   else ["=== PERSONAL INFORMATION ===".data, personalInfoSection]) ++
  (let experienceSection := extractExperienceSection cleanedContent
   if experienceSection.isEmpty then []
   else ["=== WORK EXPERIENCE ===".data, jsSubstring experienceSection 0 5000]) ++
  (let educationSection := extractEducationSection cleanedContent
   if educationSection.isEmpty then []
   else ["=== EDUCATION ===".data, jsSubstring educationSection 0 1500]) ++
  (let skillsSection := extractSkillsSection cleanedContent
   if skillsSection.isEmpty then []
   else ["=== SKILLS ===".data, jsSubstring skillsSection 0 1500])

/-- `extractResumeContent` (lines 508–571): the 160,000-character ceiling
(40,000 tokens × 4 chars/token), the cleanup pass, section-aware extraction,
and the final hard truncation guard. -/
def extractResumeContent (content : List Char) : List Char :=
  let maxChars : ℕ := 40000 * 4
  if content.length ≤ maxChars then content
  else
    let cleanedContent := cleanResumeContent content
    if maxChars < cleanedContent.length then
      let sections := resumeSections cleanedContent
      let combinedContent := List.intercalate "\n\n".data sections
      if maxChars < combinedContent.length then
        jsSubstring combinedContent 0 ((maxChars : ℤ) - 100) ++
          "\n\n[Content truncated for processing...]".data
      else combinedContent
    else cleanedContent

/-! ## `addResume` (resumes.ts lines 657–783) -/

/-- JS template-literal interpolation `${v}` of a metadata value. Non-integer
numbers do not occur in the interpolated positions (degree and field are
schema-typed strings), so their float printing is not modelled further. -/
def jsValTemplateStr : JsVal → List Char
  | .str s => s
  | JsVal.undef => "undefined".data
  | .null => "null".data
  | .bool b => if b then "true".data else "false".data
  | .num q => if q.den = 1 then (Int.repr q.num).data else "number".data
  | .arr l => List.intercalate ",".data
      (l.attach.map fun v => jsValTemplateStr v.1)
  | .obj _ => "[object Object]".data
decreasing_by
  have := List.sizeOf_lt_of_mem v.2
  simp only [JsVal.arr.sizeOf_spec]
  omega

/-- `parsedData.personalInformation?.name` as a property value
(`undefined` when absent). -/
def parsedName (parsedData : Props) : JsVal :=
  match objValue parsedData "personalInformation" with
  | some (.obj o) => (objValue o "name").getD JsVal.undef
  | _ => JsVal.undef

/-- `parsedData.experiences?.[0]?.title` as a property value. -/
def parsedTitle (parsedData : Props) : JsVal :=
  match objValue parsedData "experiences" with
  | some (.arr (v :: _)) =>
    (match v with
     | .obj o => (objValue o "title").getD JsVal.undef
     | _ => JsVal.undef)
  | _ => JsVal.undef

/-- `parsedData.experiences?.length || 0`. -/
def parsedExperiencesLen (parsedData : Props) : ℕ :=
  match objValue parsedData "experiences" with
  | some (.arr l) => l.length
  | some (.str s) => s.length
  | _ => 0

/-- `parsedData.education?.map(edu => `${edu.degree} in ${edu.field}`)
.join(', ') || 'Not specified'`. -/
def parsedEducationPart (parsedData : Props) : List Char :=
  match objValue parsedData "education" with
  | some (.arr l) =>
    let joined := List.intercalate ", ".data (l.map fun v =>
      (match v with
       | .obj o => jsValTemplateStr ((objValue o "degree").getD JsVal.undef)
       | _ => "undefined".data) ++ " in ".data ++
      (match v with
       | .obj o => jsValTemplateStr ((objValue o "field").getD JsVal.undef)
       | _ => "undefined".data))
    if joined.isEmpty then "Not specified".data else joined
  | _ => "Not specified".data

/-- The generated summary string of `addResume` (line 732). -/
def generatedSummary (parsedData : Props) : List Char :=
  (Nat.repr (parsedExperiencesLen parsedData)).data ++
  " years of experience. Education: ".data ++ parsedEducationPart parsedData

/-- `combinedCmetadata` (lines 728–742): AI-derived summary fields, then the
spread of the parsed structure, then the spread of caller metadata (which can
override), then the upload timestamp always set last. -/
def combinedCmetadata (parsedData callerMeta : Props)
    (uploadedAt : List Char) : Props :=
  [("name", parsedName parsedData),
   ("title", parsedTitle parsedData),
   ("summary", .str (generatedSummary parsedData))] ++
  parsedData ++ callerMeta ++ [("uploadedAt", .str uploadedAt)]

/-- The per-chunk metadata submitted to the vector store (lines 767–770):
the combined metadata with the generated id injected. -/
def storedChunkMetadata (parsedData callerMeta : Props)
    (uploadedAt id : List Char) : Props :=
  combinedCmetadata parsedData callerMeta uploadedAt ++ [("id", .str id)]

/-- The cleaning pass of `addResume` (lines 668–672): remove null bytes, the
control characters `[\x00-\x08\x0B\x0C\x0E-\x1F\x7F]`, the replacement
character `�`, then trim. -/
def addResumeClean (content : List Char) : List Char :=
  jsTrim (((content.filter (fun c => c ≠ '\x00')).filter
      (fun c => !(c.toNat ≤ 0x08 || c.toNat = 0x0b || c.toNat = 0x0c ||
                  (0x0e ≤ c.toNat && c.toNat ≤ 0x1f) || c.toNat = 0x7f))).filter
    (fun c => c.toNat ≠ 0xfffd))

/-- The placeholder structured resume substituted when AI parsing fails
(lines 709–724). -/
def fallbackParsedData : Props :=
  [("personalInformation", .obj
      [("name", .str "Unknown".data),
       ("position", .obj
          [("title", .str "Unknown".data), ("seniority", .str "mid".data)])]),
   ("experiences", .arr []),
   ("education", .arr []),
   ("skills", .arr []),
   ("softSkills", .arr [])]

/-- The observable outcome of one `addResume` call: the thrown validation
error or the produced record, together with every `addVectors` call made
(pairs of chunk list and per-chunk metadata list). -/
structure AddResumeOutcome where
  result : Except (List Char) (List Char × List Char × Props)
  vectorWrites : List (List (List Char) × List Props)

/-- `addResume(content, cmetadata?)` (lines 657–783). Oracles: `parseOutcome`
is the `parseResume` result (`none` models a thrown extraction error, handled
by the placeholder fallback), `stringify` is `JSON.stringify`, `uploadedAt`
and `id` are the timestamp and generated id. Validation failures throw before
any store write, so `vectorWrites` is empty on those paths. -/
def addResumeRun (parseOutcome : Option Props) (stringify : Props → List Char)
    (callerMeta : Props) (uploadedAt id : List Char)
    (content : List Char) : AddResumeOutcome :=
  if (jsTrim content).isEmpty then
    ⟨.error "Resume content cannot be empty".data, []⟩
  else
    let cleanContent := addResumeClean content
    if cleanContent.isEmpty then
      ⟨.error "Resume content is empty after cleaning".data, []⟩
    else
      let limitedContent := extractResumeContent cleanContent
      let parsedData := parseOutcome.getD fallbackParsedData
      let document := stringify parsedData
      let combined := combinedCmetadata parsedData callerMeta uploadedAt
      let chunks := chunkText document 20000 150
      let chunkMetadata := chunks.map fun _ =>
        storedChunkMetadata parsedData callerMeta uploadedAt id
      ⟨.ok (id, document, combined), [(chunks, chunkMetadata)]⟩

/-! ## `semanticSearchResumes` record assembly (resumes.ts lines 453–501) -/

/-- A document returned by the vector store's similarity search. -/
structure VectorDoc where
  pageContent : List Char
  metadata : Props

/-- The title heuristic of `semanticSearchResumes` (lines 479–480): the
second non-blank line of the document with `*` and `#` removed, trimmed. -/
def titleFromDocument (pageContent : List Char) : List Char :=
  let lines := (pageContent.splitOn '\n').filter fun l => !(jsTrim l).isEmpty
  if 1 < lines.length then
    jsTrim ((lines.getD 1 []).filter fun c => c ≠ '*' ∧ c ≠ '#')
  else "No Title".data

/-- `score.toFixed(3)` for the non-negative scores that occur here. -/
def qToFixed3 (q : ℚ) : List Char :=
  let n := jsRound (q * 1000)
  let ip := n / 1000
  let fp := (n % 1000).toNat
  (Int.repr ip).data ++ ".".data ++
    (if fp < 10 then "00".data else if fp < 100 then "0".data else []) ++
    (Nat.repr fp).data

/-- The `Score: <score> - <prefix>...` summary built at line 489. -/
def scoreSummary (score : ℚ) (pageContent : List Char) : List Char :=
  "Score: ".data ++ qToFixed3 score ++ " - ".data ++
    jsSubstring pageContent 0 200 ++ "...".data

/-- One record of the `semanticSearchResumes` result (lines 477–493): the
base fields are written first and the stored metadata is spread after them.
`genId` is the `langchain-${Date.now()}-${Math.random()}` fallback id. -/
def semanticRecord (genId : List Char) (doc : VectorDoc) (score : ℚ) :
    RetrievedResume :=
  { id :=
      (match objValue doc.metadata "id" with
       | some (.str s) => if s.isEmpty then genId else s
       | _ => genId)
    document := doc.pageContent
    cmetadata :=
      [("name", (objValue doc.metadata "name").getD JsVal.undef),
       ("fileName", (objValue doc.metadata "filename").getD JsVal.undef),
       ("title", .str (titleFromDocument doc.pageContent)),
       ("summary", .str (scoreSummary score doc.pageContent))] ++
      doc.metadata }

/-- `semanticSearchResumes`'s result mapping (lines 475–493): drop results
with score at most `0.1`, then build the records. -/
def semanticSearchRecords (genId : ℕ → List Char)
    (vectorResults : List (VectorDoc × ℚ)) : List RetrievedResume :=
  (vectorResults.filter fun p => (1 : ℚ) / 10 < p.2).mapIdx
    fun i p => semanticRecord (genId i) p.1 p.2

/-! ## Structured large inputs

Concrete over-budget résumé inputs are built from alternating two-character
blocks, which survive every pass of `cleanResumeContent` unchanged: they
contain no whitespace, only printable ASCII, and no run of equal characters
longer than two. -/

/-- `n` copies of the two-character pattern `ab`. -/
def abBlock (a b : Char) (n : ℕ) : List Char := (List.replicate n [a, b]).join

/-- A concrete over-budget résumé input: 154,000 characters of `xy` filler,
an `experience` marker, 4,000 more filler characters, an `education` marker
followed by a 3,000-character `qz` education body, a `competencies` marker
(a skills-pattern word), and 3,000 trailing filler characters; 164,031
characters in total, all of which survive `cleanResumeContent` unchanged. -/
def bigC6 : List Char :=
  abBlock 'x' 'y' 77000 ++ ("experience".data ++ (abBlock 'x' 'y' 2000 ++
    ("education".data ++ (abBlock 'q' 'z' 1500 ++ ("competencies".data ++
      abBlock 'x' 'y' 1500)))))

/-- The reduced content `extractResumeContent` produces for `bigC6`. -/
def combinedBig : List Char :=
  List.intercalate ['\n', '\n']
    [['=', '=', '=', ' ', 'P', 'E', 'R', 'S', 'O', 'N', 'A', 'L', ' ', 'I', 'N', 'F', 'O', 'R', 'M', 'A', 'T', 'I', 'O', 'N', ' ', '=', '=', '='], abBlock 'x' 'y' 500,
     ['=', '=', '=', ' ', 'W', 'O', 'R', 'K', ' ', 'E', 'X', 'P', 'E', 'R', 'I', 'E', 'N', 'C', 'E', ' ', '=', '=', '='], 'e' :: 'x' :: 'p' :: 'e' :: 'r' :: 'i' :: 'e' :: 'n' :: 'c' :: 'e' :: abBlock 'x' 'y' 1995,
     ['=', '=', '=', ' ', 'E', 'D', 'U', 'C', 'A', 'T', 'I', 'O', 'N', ' ', '=', '=', '='], 'e' :: 'd' :: 'u' :: 'c' :: 'a' :: 't' :: 'i' :: 'o' :: 'n' :: (abBlock 'q' 'z' 745 ++ ['q']),
     ['=', '=', '=', ' ', 'S', 'K', 'I', 'L', 'L', 'S', ' ', '=', '=', '='], 'c' :: 'o' :: 'm' :: 'p' :: 'e' :: 't' :: 'e' :: 'n' :: 'c' :: 'i' :: 'e' :: 's' :: abBlock 'x' 'y' 744]

lemma chunkNextStart_ge (start : ℕ) (e overlap : ℤ) :
    (start : ℤ) + 1 ≤ chunkNextStart start e overlap :=
  le_max_left _ _

lemma chunkNextStart_toNat_ge (start : ℕ) (e overlap : ℤ) :
    start + 1 ≤ (chunkNextStart start e overlap).toNat := by
  have h := chunkNextStart_ge start e overlap
  omega

/-- C1: when structured scoring fails (`llmResult = none`), the scorer returns
exactly `round(clamp(semanticScore * 100, 0, 100))` as the percentage, the
generic explanation, and match details with no category sub-score populated,
for every value of the semantic score. -/
theorem scorer_fallback_exact (s : ℚ) :
    (generateMatchAnalysis none (some s)).percentage =
      some ((specFallbackPercentage s : ℤ) : ℚ) ∧
    (generateMatchAnalysis none (some s)).explanation =
      "Match based on semantic similarity to your search criteria.".data ∧
    (generateMatchAnalysis none (some s)).details.positionMatch = none ∧
    (generateMatchAnalysis none (some s)).details.seniorityMatch = none ∧
    (generateMatchAnalysis none (some s)).details.skillsMatch = none ∧
    (generateMatchAnalysis none (some s)).details.experienceMatch = none ∧
    (generateMatchAnalysis none (some s)).details.educationMatch = none ∧
    (generateMatchAnalysis none (some s)).details.locationMatch = none ∧
    (generateMatchAnalysis none (some s)).details.softSkillsMatch = none ∧
    (generateMatchAnalysis none (some s)).details.keyStrengths =
      ["Semantic similarity to search query".data] ∧
    (generateMatchAnalysis none (some s)).details.potentialConcerns =
      ["Detailed analysis unavailable".data] := by
  refine ⟨?_, rfl, rfl, rfl, rfl, rfl, rfl, rfl, rfl, rfl, rfl⟩
  show some (((jsRound (min 100 (max 0 (s * 100))) : ℤ) : ℚ)) = _
  have : min 100 (max 0 (s * 100)) = max 0 (min (s * 100) 100) := by
    rw [max_min_distrib_left]
    norm_num [min_comm]
  rw [specFallbackPercentage, this]

lemma foldl_jsnAdd_map_some (qs : List ℚ) :
    ∀ (a : ℚ), (qs.map some).foldl jsnAdd (some a) = some (a + qs.sum) := by
  induction qs with
  | nil => simp
  | cons q t ih =>
    intro a
    simpa [jsnAdd, add_assoc] using ih (a + q)

lemma foldl_confidence_eq (cs : List ScoredCandidate) (qs : List ℚ)
    (h : cs.map (·.confidence) = qs.map some) :
    cs.foldl (fun s r => jsnAdd s r.confidence) (some 0) = some qs.sum := by
  have : cs.foldl (fun s r => jsnAdd s r.confidence) (some 0)
      = (cs.map (·.confidence)).foldl jsnAdd (some 0) := by
    rw [List.foldl_map]
  rw [this, h]
  simpa using foldl_jsnAdd_map_some qs 0

/-- C4: the orchestrator's `averageConfidence` is the integer-rounded mean of
the returned candidates' confidence values, and `0` when no candidates were
returned. -/
theorem averageConfidence_is_rounded_mean (u : Bool)
    (p : Option SearchCriteria) (llm : ℕ → Option MatchAnalysis)
    (q : List Char) (resumes : List RetrievedResume) (qs : List ℚ)
    (h : (searchResumesExecute u p llm q resumes).candidates.map (·.confidence)
          = qs.map some) :
    (searchResumesExecute u p llm q resumes).averageConfidence =
      if (searchResumesExecute u p llm q resumes).candidates.isEmpty then some 0
      else some ((jsRound (qs.sum / qs.length) : ℤ) : ℚ) := by
  have hlen : (searchResumesExecute u p llm q resumes).candidates.length
      = qs.length := by
    have := congrArg List.length h
    simpa using this
  by_cases hq : (searchResumesExecute u p llm q resumes).candidates.isEmpty
  · simp only [hq, if_pos]
    simp only [searchResumesExecute, SearchResult.averageConfidence] at hq ⊢
    simp only [List.isEmpty_iff] at hq
    simp [hq]
  · simp only [hq, if_neg]
    have hfold := foldl_confidence_eq _ qs h
    simp only [searchResumesExecute] at hfold hlen ⊢
    rw [if_pos, hfold, hlen]
    · simp [jsnRound, jsnDivNat]
    · simp only [searchResumesExecute, List.isEmpty_iff] at hq
      have := List.length_pos.mpr hq
      simpa [searchResumesExecute] using this

/-- Witness for C4: two candidates whose scoring calls return 80 and 90;
the rounded mean is `Math.round(170 / 2) = 85`. -/
theorem averageConfidence_is_rounded_mean_witness :
    (searchResumesExecute true none
      (fun i => some ⟨some (if i = 0 then 80 else 90), [],
        ⟨none, none, none, none, none, none, none, [], []⟩⟩) []
      [⟨[], [], []⟩, ⟨[], [], []⟩]).averageConfidence =
      if (searchResumesExecute true none
          (fun i => some ⟨some (if i = 0 then 80 else 90), [],
            ⟨none, none, none, none, none, none, none, [], []⟩⟩) []
          [⟨[], [], []⟩, ⟨[], [], []⟩]).candidates.isEmpty then some 0
      else some ((jsRound (([80, 90] : List ℚ).sum / ([80, 90] : List ℚ).length) : ℤ) : ℚ) :=
  averageConfidence_is_rounded_mean true none _ [] _ [80, 90] (by rfl)

lemma enhancedQueryParts_eq_nil {c : SearchCriteria}
    (h : criteriaHasEnrichment c = false) : enhancedQueryParts c = [] := by
  simp only [criteriaHasEnrichment, Bool.or_eq_false_iff] at h
  obtain ⟨⟨⟨⟨⟨⟨⟨⟨h1, h2⟩, h3⟩, h4⟩, h5⟩, h6⟩, h7⟩, h8⟩, h9⟩ := h
  simp [enhancedQueryParts, h1, h2, h3, h4, h5, h6, h7, h8, h9]

/-- C5: when criteria parsing returns `null`, or returns criteria in which
every field used to build the enriched query is absent or empty (falsy), the
query passed to retrieval — and reported as `SearchResult.query` — is exactly
the raw input query. -/
theorem enriched_query_fallback (u : Bool) (p : Option SearchCriteria)
    (llm : ℕ → Option MatchAnalysis) (q : List Char)
    (resumes : List RetrievedResume)
    (h : p = none ∨ ∃ c, p = some c ∧ criteriaHasEnrichment c = false) :
    computeSearchQuery u p q = q ∧
    (searchResumesExecute u p llm q resumes).query = q := by
  have hq : computeSearchQuery u p q = q := by
    rcases h with h | ⟨c, rfl, hc⟩
    · subst h
      cases u <;> simp [computeSearchQuery]
    · cases u <;> simp [computeSearchQuery, enhancedQueryParts_eq_nil hc]
  exact ⟨hq, by simpa [searchResumesExecute] using hq⟩

/-- Witness for C5: an all-empty parsed criteria object leaves the query
`"react developer"` untouched. -/
theorem enriched_query_fallback_witness :
    computeSearchQuery true
        (some { position := none, skills := none, experience := none,
                education := none, location := none, softSkills := none })
        "react developer".data = "react developer".data ∧
    (searchResumesExecute true
        (some { position := none, skills := none, experience := none,
                education := none, location := none, softSkills := none })
        (fun _ => none) "react developer".data []).query =
      "react developer".data :=
  enriched_query_fallback true _ (fun _ => none) _ []
    (Or.inr ⟨_, rfl, by rfl⟩)

/-- Counterexample to C7 as stated: for the empty text (with the default
parameters), `chunkText` returns `[""]`, whose only element is empty. -/
theorem chunk_nonempty_counterexample :
    chunkText [] 2000 200 = [[]] ∧ ([] : List Char) ∈ chunkText [] 2000 200 := by
  constructor <;> simp [chunkText]

lemma chunkLoop_ne_nil (text : List Char) (m o : ℤ) :
    ∀ (n start : ℕ), text.length - start ≤ n →
      ∀ ch ∈ chunkLoop text m o start, ch ≠ [] := by
  intro n
  induction n with
  | zero =>
    intro start hle ch hch
    rw [chunkLoop] at hch
    simp only [show ¬ start < text.length by omega, dite_false] at hch
    exact absurd hch (List.not_mem_nil ch)
  | succ n ih =>
    intro start hle ch hch
    rw [chunkLoop] at hch
    by_cases hs : start < text.length
    · simp only [hs, dite_true] at hch
      have hnext : start + 1 ≤
          (chunkNextStart start (chunkEnd text m start) o).toNat :=
        chunkNextStart_toNat_ge start _ o
      split at hch
      · exact ih _ (by omega) ch hch
      · rcases List.mem_cons.mp hch with rfl | hmem
        · rename_i hne
          intro hnil
          simp [hnil] at hne
        · exact ih _ (by omega) ch hmem
    · simp only [hs, dite_false] at hch
      exact absurd hch (List.not_mem_nil ch)

/-- C7 amended: for every non-empty text and all parameter values, every
element of `chunkText text maxChunkSize overlap` is a non-empty string (the
original claim fails only for the empty text, which is returned as the single
element `[""]`). -/
theorem chunk_elements_nonempty (text : List Char) (m o : ℤ)
    (htext : text ≠ []) : ∀ ch ∈ chunkText text m o, ch ≠ [] := by
  intro ch hch
  rw [chunkText] at hch
  split at hch
  · rcases List.mem_singleton.mp hch with rfl
    exact htext
  · exact chunkLoop_ne_nil text m o text.length 0 (by omega) ch hch

/-- Witness for the amended C7 at a concrete non-empty text. -/
theorem chunk_elements_nonempty_witness :
    "ab".data ≠ [] ∧ ∀ ch ∈ chunkText "ab".data 1 0, ch ≠ [] :=
  ⟨by simp, chunk_elements_nonempty "ab".data 1 0 (by simp)⟩

/-- C8: `chunkText` makes forward progress of at least one character per loop
iteration — `start' = max(start + 1, end - overlap) ≥ start + 1` — so the
loop measure `text.length - start` strictly decreases; this holds in
particular for every `maxChunkSize ≥ 1` and `overlap ≥ 0`, including
`overlap ≥ maxChunkSize`. -/
theorem chunk_progress (m o : ℤ) (hm : 1 ≤ m) (ho : 0 ≤ o)
    (text : List Char) (start : ℕ) (e : ℤ) :
    (start : ℤ) + 1 ≤ chunkNextStart start e o ∧
    (start < text.length →
      text.length - (chunkNextStart start (chunkEnd text m start) o).toNat
        < text.length - start) := by
  refine ⟨chunkNextStart_ge start e o, fun hs => ?_⟩
  have := chunkNextStart_toNat_ge start (chunkEnd text m start) o
  omega

/-- Witness for C8 with `overlap = 5 ≥ maxChunkSize = 2`. -/
theorem chunk_progress_witness :
    ((0 : ℕ) : ℤ) + 1 ≤ chunkNextStart 0 2 5 ∧
    (0 < "abc".data.length →
      "abc".data.length - (chunkNextStart 0 (chunkEnd "abc".data 2 0) 5).toNat
        < "abc".data.length - 0) :=
  chunk_progress 2 5 (by norm_num) (by norm_num) "abc".data 0 2

lemma lookup_taskLog {α : Type} (f : ℕ → α) :
    ∀ (order : List ℕ) (i : ℕ), i ∈ order →
      (taskLog order f).lookup i = some (f i) := by
  intro order
  induction order with
  | nil => simp
  | cons j t ih =>
    intro i hi
    rcases List.mem_cons.mp hi with rfl | hmem
    · simp [taskLog, List.lookup]
    · by_cases hij : i = j
      · subst hij
        simp [taskLog, List.lookup]
      · have hb : (i == j) = false := beq_eq_false_iff_ne.mpr hij
        simpa [taskLog, List.lookup, hb] using ih i hmem

/-- C3: the final candidates array preserves the retriever's order.
First conjunct: joining the per-candidate scoring tasks by slot
(`Promise.all`) yields exactly the in-order list of scored candidates, for
every completion order of the tasks. Second conjunct: the `i`-th candidate is
the scored record derived from the `i`-th retrieved resume — same `id`, and
content equal to the first 500 characters of its stored document plus `...` —
with no re-sorting by confidence. -/
theorem candidates_preserve_retrieval_order (u : Bool)
    (p : Option SearchCriteria) (llm : ℕ → Option MatchAnalysis)
    (q : List Char) (resumes : List RetrievedResume) (order : List ℕ)
    (hperm : order.Perm (List.range resumes.length)) :
    joinAll resumes.length
        (taskLog order (fun i => scoreCandidate (llm i) (resumes.getD i default)))
      = ((searchResumesExecute u p llm q resumes).candidates).map some ∧
    ∀ (i : ℕ) (h : i < resumes.length),
      ∃ h2 : i < (searchResumesExecute u p llm q resumes).candidates.length,
        (searchResumesExecute u p llm q resumes).candidates.get ⟨i, h2⟩
          = scoreCandidate (llm i) (resumes.get ⟨i, h⟩) ∧
        ((searchResumesExecute u p llm q resumes).candidates.get ⟨i, h2⟩).id
          = (resumes.get ⟨i, h⟩).id ∧
        ((searchResumesExecute u p llm q resumes).candidates.get ⟨i, h2⟩).content
          = (resumes.get ⟨i, h⟩).document.take 500 ++ "...".data := by
  have hcand : (searchResumesExecute u p llm q resumes).candidates
      = resumes.mapIdx fun i r => scoreCandidate (llm i) r := rfl
  have hlen : (searchResumesExecute u p llm q resumes).candidates.length
      = resumes.length := by
    rw [hcand, List.length_mapIdx]
  have hget : ∀ (i : ℕ) (h : i < resumes.length),
      ∃ h2 : i < (searchResumesExecute u p llm q resumes).candidates.length,
        (searchResumesExecute u p llm q resumes).candidates.get ⟨i, h2⟩
          = scoreCandidate (llm i) (resumes.get ⟨i, h⟩) := by
    intro i h
    refine ⟨by omega, ?_⟩
    have := List.get_mapIdx resumes (fun i r => scoreCandidate (llm i) r) i h
    simpa [hcand] using this
  constructor
  · apply List.ext_get
    · simp [joinAll, hlen]
    · intro i h1 h2
      have hi : i < resumes.length := by simpa [joinAll] using h1
      have hio : i ∈ order := hperm.mem_iff.mpr (List.mem_range.mpr hi)
      have hlookup := lookup_taskLog
        (fun i => scoreCandidate (llm i) (resumes.getD i default)) order i hio
      have hD : resumes.getD i default = resumes.get ⟨i, hi⟩ := by
        rw [List.getD_eq_getElem _ _ hi]
        simp [List.get_eq_getElem]
      obtain ⟨h3, hgi⟩ := hget i hi
      simp only [joinAll, List.get_map, List.get_range, hlookup, hD]
      exact congrArg some hgi.symm
  · intro i h
    obtain ⟨h2, hgi⟩ := hget i h
    exact ⟨h2, hgi, by rw [hgi]; rfl, by rw [hgi]; rfl⟩

/-- Witness for C3: two retrieved resumes with the scoring tasks completing
in reversed order (`[1, 0]`). -/
theorem candidates_preserve_retrieval_order_witness :
    (joinAll 2 (taskLog [1, 0] (fun i => scoreCandidate none
        ([(⟨"a".data, "docA".data, []⟩ : RetrievedResume),
          ⟨"b".data, "docB".data, []⟩].getD i default)))
      = ((searchResumesExecute true none (fun _ => none) []
          [⟨"a".data, "docA".data, []⟩, ⟨"b".data, "docB".data, []⟩]).candidates).map some) ∧
    ∀ (i : ℕ) (h : i < ([(⟨"a".data, "docA".data, []⟩ : RetrievedResume),
          ⟨"b".data, "docB".data, []⟩] : List RetrievedResume).length),
      ∃ h2 : i < (searchResumesExecute true none (fun _ => none) []
          [⟨"a".data, "docA".data, []⟩, ⟨"b".data, "docB".data, []⟩]).candidates.length,
        (searchResumesExecute true none (fun _ => none) []
          [⟨"a".data, "docA".data, []⟩, ⟨"b".data, "docB".data, []⟩]).candidates.get ⟨i, h2⟩
          = scoreCandidate none
              (([(⟨"a".data, "docA".data, []⟩ : RetrievedResume),
                ⟨"b".data, "docB".data, []⟩] : List RetrievedResume).get ⟨i, h⟩) ∧
        ((searchResumesExecute true none (fun _ => none) []
          [⟨"a".data, "docA".data, []⟩, ⟨"b".data, "docB".data, []⟩]).candidates.get ⟨i, h2⟩).id
          = (([(⟨"a".data, "docA".data, []⟩ : RetrievedResume),
              ⟨"b".data, "docB".data, []⟩] : List RetrievedResume).get ⟨i, h⟩).id ∧
        ((searchResumesExecute true none (fun _ => none) []
          [⟨"a".data, "docA".data, []⟩, ⟨"b".data, "docB".data, []⟩]).candidates.get ⟨i, h2⟩).content
          = (([(⟨"a".data, "docA".data, []⟩ : RetrievedResume),
              ⟨"b".data, "docB".data, []⟩] : List RetrievedResume).get ⟨i, h⟩).document.take 500
            ++ "...".data :=
  candidates_preserve_retrieval_order true none (fun _ => none) []
    [⟨"a".data, "docA".data, []⟩, ⟨"b".data, "docB".data, []⟩] [1, 0] (by decide)

lemma foldl_objStep (k : String) (b : Props) :
    ∀ init : Option JsVal,
      b.foldl (fun acc p => if p.1 = k then some p.2 else acc) init =
        (objValue b k).elim init some := by
  induction b with
  | nil => intro init; simp [objValue]
  | cons p t ih =>
    intro init
    have hb : objValue (p :: t) k =
        (objValue t k).elim (if p.1 = k then some p.2 else none) some := by
      simpa [objValue] using ih (if p.1 = k then some p.2 else none)
    simp only [List.foldl_cons, ih, hb]
    cases hv : objValue t k with
    | some v => simp
    | none =>
      by_cases hp : p.1 = k <;> simp [hp]

lemma objValue_append (a b : Props) (k : String) :
    objValue (a ++ b) k = (objValue b k).elim (objValue a k) some := by
  simpa [objValue, List.foldl_append] using foldl_objStep k b (objValue a k)

lemma objValue_combined_summary (parsedData callerMeta : Props)
    (uploadedAt id : List Char) :
    (objValue (storedChunkMetadata parsedData callerMeta uploadedAt id)
      "summary").isSome := by
  simp only [storedChunkMetadata, combinedCmetadata, objValue_append]
  cases objValue [("id", JsVal.str id)] "summary" <;>
    simp_all <;>
  cases objValue [("uploadedAt", JsVal.str uploadedAt)] "summary" <;>
    simp_all <;>
  cases objValue callerMeta "summary" <;>
    simp_all <;>
  cases objValue parsedData "summary" <;>
    simp [objValue]

/-- C2 amended: for every record built by `semanticSearchResumes` from a
stored chunk of `addResume`, the `Score: <score> - ...` summary written by
`semanticSearchResumes` is overwritten by the spread of the stored metadata
(which always carries a `summary` property), and whenever that stored summary
contains no match of `/Score: ([\d.]+)/` the orchestrator's raw score is `0`.
(The original claim's unconditional "the regex match fails and rawScore is 0"
does not hold: caller-supplied metadata — or parsed education fields —
can put a `Score: <digits>` substring into the stored summary.) -/
theorem summary_overwritten_rawScore_zero (parsedData callerMeta : Props)
    (uploadedAt id genId pageContent : List Char) (score : ℚ) :
    objValue (semanticRecord genId
        ⟨pageContent, storedChunkMetadata parsedData callerMeta uploadedAt id⟩
        score).cmetadata "summary"
      = objValue (storedChunkMetadata parsedData callerMeta uploadedAt id)
          "summary" ∧
    (∀ s, objStr (storedChunkMetadata parsedData callerMeta uploadedAt id)
        "summary" = some s →
      scoreCapture s = none →
      extractRawScore (summaryStr (semanticRecord genId
        ⟨pageContent, storedChunkMetadata parsedData callerMeta uploadedAt id⟩
        score)) = some 0) := by
  have hsome := objValue_combined_summary parsedData callerMeta uploadedAt id
  have hover : objValue (semanticRecord genId
      ⟨pageContent, storedChunkMetadata parsedData callerMeta uploadedAt id⟩
      score).cmetadata "summary"
      = objValue (storedChunkMetadata parsedData callerMeta uploadedAt id)
          "summary" := by
    simp only [semanticRecord, objValue_append]
    obtain ⟨v, hv⟩ := Option.isSome_iff_exists.mp hsome
    simp [hv]
  refine ⟨hover, fun s hs hcap => ?_⟩
  have hv : objValue (storedChunkMetadata parsedData callerMeta uploadedAt id)
      "summary" = some (.str s) := by
    unfold objStr at hs
    split at hs
    · rename_i heq
      simp_all
    · exact absurd hs (by simp)
  have : summaryStr (semanticRecord genId
      ⟨pageContent, storedChunkMetadata parsedData callerMeta uploadedAt id⟩
      score) = some s := by
    unfold summaryStr
    rw [hover, hv]
  rw [this]
  unfold extractRawScore
  simp [hcap]

/-- Witness for the amended C2: empty parsed data and caller metadata; the
stored summary is the generated
`"0 years of experience. Education: Not specified"`, which contains no
`Score:` pattern, so the raw score is `0`. -/
theorem summary_overwritten_rawScore_zero_witness :
    objValue (semanticRecord "g".data
        ⟨"doc".data, storedChunkMetadata [] [] "2024".data "id1".data⟩
        (1 / 2)).cmetadata "summary"
      = objValue (storedChunkMetadata [] [] "2024".data "id1".data)
          "summary" ∧
    extractRawScore (summaryStr (semanticRecord "g".data
        ⟨"doc".data, storedChunkMetadata [] [] "2024".data "id1".data⟩
        (1 / 2))) = some 0 :=
  ⟨(summary_overwritten_rawScore_zero [] [] "2024".data "id1".data "g".data
      "doc".data (1 / 2)).1,
   (summary_overwritten_rawScore_zero [] [] "2024".data "id1".data "g".data
      "doc".data (1 / 2)).2 _ rfl rfl⟩

/-- Counterexample to C2 as stated: a record produced by `addResume` whose
caller-supplied metadata overrides the summary with a string containing
`Score: 0.9`. The overwrite still happens, but the orchestrator's regex
matches the stored summary, and the raw score is `0.9`, not `0`. -/
theorem rawScore_not_always_zero :
    (addResumeRun (some []) (fun _ => "{}".data)
        [("summary", .str "Score: 0.9 - external".data)]
        "2024".data "id1".data "resume".data).vectorWrites
      = [(chunkText "{}".data 20000 150,
          (chunkText "{}".data 20000 150).map fun _ =>
            storedChunkMetadata [] [("summary", .str "Score: 0.9 - external".data)]
              "2024".data "id1".data)] ∧
    extractRawScore (summaryStr (semanticRecord "g".data
        ⟨"doc".data,
         storedChunkMetadata [] [("summary", .str "Score: 0.9 - external".data)]
           "2024".data "id1".data⟩
        (1 / 2))) = some (mkRat 9 10) ∧
    some (mkRat 9 10) ≠ some (0 : ℚ) := by
  refine ⟨rfl, by decide, by decide⟩

lemma jsTrim_of_all_ws {l : List Char} (h : ∀ c ∈ l, isJsWs c = true) :
    jsTrim l = [] := by
  have hd : l.dropWhile isJsWs = [] := List.dropWhile_eq_nil_iff.mpr h
  simp [jsTrim, hd]

/-- C9: for content that is empty or whitespace-only, or that becomes empty
after the control-character cleaning pass, `addResume` fails with the
corresponding validation error and performs no embedding-store write:
`addVectors` is never called on these paths. -/
theorem addResume_rejects_empty_before_write (parseOutcome : Option Props)
    (stringify : Props → List Char) (callerMeta : Props)
    (uploadedAt id content : List Char)
    (h : (∀ c ∈ content, isJsWs c = true) ∨ addResumeClean content = []) :
    ((addResumeRun parseOutcome stringify callerMeta uploadedAt id
        content).result = .error "Resume content cannot be empty".data ∨
     (addResumeRun parseOutcome stringify callerMeta uploadedAt id
        content).result = .error "Resume content is empty after cleaning".data) ∧
    (addResumeRun parseOutcome stringify callerMeta uploadedAt id
        content).vectorWrites = [] := by
  by_cases h1 : (jsTrim content).isEmpty
  · constructor
    · left
      simp [addResumeRun, h1]
    · simp [addResumeRun, h1]
  · have h2 : addResumeClean content = [] := by
      rcases h with h | h
      · exact absurd (by simp [jsTrim_of_all_ws h]) h1
      · exact h
    constructor
    · right
      simp [addResumeRun, h1, h2]
    · simp [addResumeRun, h1, h2]

/-- Witness for C9: a whitespace-only content string. -/
theorem addResume_rejects_empty_before_write_witness :
    ((addResumeRun none (fun _ => []) [] "2024".data "id1".data
        "   ".data).result = .error "Resume content cannot be empty".data ∨
     (addResumeRun none (fun _ => []) [] "2024".data "id1".data
        "   ".data).result = .error "Resume content is empty after cleaning".data) ∧
    (addResumeRun none (fun _ => []) [] "2024".data "id1".data
        "   ".data).vectorWrites = [] :=
  addResume_rejects_empty_before_write none (fun _ => []) [] "2024".data
    "id1".data "   ".data (Or.inl (by decide))

lemma abBlock_zero (a b : Char) : abBlock a b 0 = [] := rfl

lemma abBlock_succ (a b : Char) (n : ℕ) :
    abBlock a b (n + 1) = a :: b :: abBlock a b n := by
  simp [abBlock, List.replicate_succ]

lemma abBlock_length (a b : Char) : ∀ n, (abBlock a b n).length = 2 * n := by
  intro n
  induction n with
  | zero => rfl
  | succ n ih => rw [abBlock_succ]; simp [ih]; ring

lemma abBlock_mem (a b : Char) : ∀ n, ∀ c ∈ abBlock a b n, c = a ∨ c = b := by
  intro n
  induction n with
  | zero => simp [abBlock_zero]
  | succ n ih =>
    rw [abBlock_succ]
    intro c hc
    rcases hc with _ | ⟨_, hc⟩
    · exact Or.inl rfl
    · rcases hc with _ | ⟨_, hc⟩
      · exact Or.inr rfl
      · exact ih c (by simpa using hc)

lemma collapseRepeats_nil : collapseRepeats [] = [] := by rw [collapseRepeats]

lemma collapseWsAux_of_no_ws (b : Bool) : ∀ {l : List Char},
    (∀ c ∈ l, isJsWs c = false) → collapseWsAux b l = l := by
  intro l
  induction l generalizing b with
  | nil => intro _; rfl
  | cons c t ih =>
    intro h
    rw [collapseWsAux, if_neg (by simp [h c (by simp)])]
    exact congrArg (c :: ·) (ih false fun x hx => h x (by simp [hx]))

lemma collapseWs_of_no_ws {l : List Char}
    (h : ∀ c ∈ l, isJsWs c = false) : collapseWs l = l :=
  collapseWsAux_of_no_ws false h

lemma jsTrim_of_no_ws {l : List Char}
    (h : ∀ c ∈ l, isJsWs c = false) : jsTrim l = l := by
  have h1 : l.dropWhile isJsWs = l := by
    cases l with
    | nil => rfl
    | cons c t => rw [List.dropWhile_cons_of_neg (by simp [h c (by simp)])]
  have h2 : l.reverse.dropWhile isJsWs = l.reverse := by
    cases hr : l.reverse with
    | nil => rfl
    | cons c t =>
      rw [List.dropWhile_cons_of_neg]
      simp only [h c (by rw [← List.mem_reverse, hr]; simp), Bool.false_eq_true,
        not_false_eq_true]
  rw [jsTrim, h1, h2, List.reverse_reverse]

lemma collapseRepeats_singleton (a : Char) : collapseRepeats [a] = [a] := by
  rw [collapseRepeats]
  simp [collapseRepeats_nil]

lemma collapseRepeats_cons_ne {a b : Char} (hab : b ≠ a) (t : List Char) :
    collapseRepeats (a :: b :: t) = a :: collapseRepeats (b :: t) := by
  conv_lhs => rw [collapseRepeats]
  simp [List.takeWhile_cons, hab]

lemma collapseRepeats_cons₂_ne {a b : Char} (hab : b ≠ a) (t : List Char) :
    collapseRepeats (a :: a :: b :: t) = a :: a :: collapseRepeats (b :: t) := by
  conv_lhs => rw [collapseRepeats]
  simp [List.takeWhile_cons, hab]

lemma collapseRepeats_head_step {b : Char} {t : List Char}
    (ht : ∀ x, t.head? = some x → x ≠ b) :
    collapseRepeats (b :: t) = b :: collapseRepeats t := by
  cases t with
  | nil => rw [collapseRepeats_singleton, collapseRepeats_nil]
  | cons x t2 => exact collapseRepeats_cons_ne (ht x rfl) t2

lemma collapseRepeats_abBlock {a b : Char} (hab : a ≠ b) {t : List Char}
    (ht : ∀ x, t.head? = some x → x ≠ a ∧ x ≠ b) :
    ∀ n, collapseRepeats (abBlock a b n ++ t)
      = abBlock a b n ++ collapseRepeats t := by
  intro n
  induction n with
  | zero => simp [abBlock_zero]
  | succ n ih =>
    rw [abBlock_succ]
    simp only [List.cons_append]
    rw [collapseRepeats_cons_ne (Ne.symm hab)]
    rw [collapseRepeats_head_step, ih]
    intro x hx
    cases n with
    | zero =>
      simp only [abBlock_zero, List.nil_append] at hx
      exact (ht x hx).2
    | succ n =>
      rw [abBlock_succ] at hx
      simp only [List.cons_append, List.head?_cons, Option.some.injEq] at hx
      subst hx
      exact hab

/-- The cleanup pass of `extractResumeContent` leaves a pure alternating
block unchanged. -/
lemma cleanResumeContent_abBlock {a b : Char} (hab : a ≠ b)
    (hwa : isJsWs a = false) (hwb : isJsWs b = false)
    (hka : keepAsciiChar a = true) (hkb : keepAsciiChar b = true) (n : ℕ) :
    cleanResumeContent (abBlock a b n) = abBlock a b n := by
  have hmem := abBlock_mem a b n
  have h1 : collapseWs (abBlock a b n) = abBlock a b n :=
    collapseWs_of_no_ws fun c hc => by rcases hmem c hc with rfl | rfl <;> assumption
  have h2 : (abBlock a b n).filter keepAsciiChar = abBlock a b n :=
    List.filter_eq_self.mpr fun c hc => by rcases hmem c hc with rfl | rfl <;> assumption
  have h3 : collapseRepeats (abBlock a b n) = abBlock a b n := by
    have := collapseRepeats_abBlock hab (t := []) (by simp) n
    simpa [collapseRepeats_nil] using this
  rw [cleanResumeContent, h1, h2, h3]
  exact jsTrim_of_no_ws fun c hc => by rcases hmem c hc with rfl | rfl <;> assumption

lemma jsSubstring_zero_length_le (l : List Char) (e : ℤ) (he : 0 ≤ e) :
    (jsSubstring l 0 e).length ≤ e.toNat := by
  have h0 : (0 : ℤ) ≤ (l.length : ℤ) := by positivity
  simp only [jsSubstring, List.length_drop, List.length_take]
  omega

/-- C10: for every input, the output of `extractResumeContent` is at most
160,000 characters (the 40,000-token × 4 chars/token ceiling); and the
concrete 300,000-character input `xyxy…xy` passes the cleanup unchanged, so
it exceeds the cleaned-content ceiling that triggers section-aware
extraction, and its reduced content is within the ceiling. -/
theorem extractResumeContent_within_ceiling :
    (∀ content, (extractResumeContent content).length ≤ 160000) ∧
    (abBlock 'x' 'y' 150000).length = 300000 ∧
    160000 < (cleanResumeContent (abBlock 'x' 'y' 150000)).length ∧
    (extractResumeContent (abBlock 'x' 'y' 150000)).length ≤ 160000 := by
  have hmarker : ("\n\n[Content truncated for processing...]".data).length = 39 := by
    decide
  have htrunc : ∀ C : List Char,
      (if (40000 * 4 : ℕ) < C.length then
        jsSubstring C 0 (((40000 * 4 : ℕ) : ℤ) - 100) ++
          "\n\n[Content truncated for processing...]".data
      else C).length ≤ 160000 := by
    intro C
    split
    case isTrue h3 =>
      rw [List.length_append, hmarker]
      have hsub := jsSubstring_zero_length_le C (((40000 * 4 : ℕ) : ℤ) - 100)
        (by norm_num)
      exact Nat.le_trans (Nat.add_le_add_right hsub 39) (by omega)
    case isFalse h3 => omega
  have hbound : ∀ content, (extractResumeContent content).length ≤ 160000 := by
    intro content
    simp only [extractResumeContent]
    split
    case isTrue h => omega
    case isFalse h =>
      split
      case isTrue h2 => exact htrunc _
      case isFalse h2 => omega
  have hclean : cleanResumeContent (abBlock 'x' 'y' 150000)
      = abBlock 'x' 'y' 150000 :=
    cleanResumeContent_abBlock (by decide) (by decide) (by decide)
      (by decide) (by decide) 150000
  have hlen : (abBlock 'x' 'y' 150000).length = 300000 := by
    rw [abBlock_length]
  refine ⟨hbound, hlen, ?_, hbound _⟩
  rw [hclean, hlen]
  norm_num

/-! ## Search and assembly infrastructure for concrete over-budget inputs -/

lemma searchAux_cons_false (m : List Char → Bool) (c : Char) (t : List Char)
    (h : m (c :: t) = false) :
    jsSearchAux m (c :: t) = (jsSearchAux m t).map (· + 1) := by
  simp [jsSearchAux, h]

lemma searchAux_cons_true (m : List Char → Bool) (c : Char) (t : List Char)
    (h : m (c :: t) = true) : jsSearchAux m (c :: t) = some 0 := by
  simp [jsSearchAux, h]

lemma searchAux_append_skip (m : List Char → Bool) :
    ∀ (p t : List Char), (∀ q, q <:+ p → q ≠ [] → m (q ++ t) = false) →
      jsSearchAux m (p ++ t) = (jsSearchAux m t).map (· + p.length) := by
  intro p
  induction p with
  | nil =>
    intro t _
    simp only [List.nil_append, List.length_nil]
    cases jsSearchAux m t <;> simp
  | cons c p' ih =>
    intro t h
    have hc : m ((c :: p') ++ t) = false :=
      h (c :: p') (List.suffix_refl _) (by simp)
    rw [List.cons_append, searchAux_cons_false m c (p' ++ t) hc,
      ih t fun q hq hne => h q (hq.trans (List.suffix_cons c p')) hne]
    cases jsSearchAux m t <;> simp
    omega

lemma suffix_abBlock_head {a b : Char} {q : List Char} (n : ℕ)
    (hq : q <:+ abBlock a b n) (hne : q ≠ []) :
    ∃ c q', q = c :: q' ∧ (c = a ∨ c = b) := by
  cases q with
  | nil => exact absurd rfl hne
  | cons c q' =>
    refine ⟨c, q', rfl, ?_⟩
    exact abBlock_mem a b n c (hq.subset (by simp))

lemma intercalate_cons_cons (sep x y : List Char) (t : List (List Char)) :
    List.intercalate sep (x :: y :: t)
      = x ++ sep ++ List.intercalate sep (y :: t) := by
  simp [List.intercalate, List.intersperse]

lemma intercalate_singleton (sep x : List Char) :
    List.intercalate sep [x] = x := by
  simp [List.intercalate]

lemma infix_intercalate_of_mem (sep : List Char) :
    ∀ (ls : List (List Char)) (x : List Char), x ∈ ls →
      x <:+: List.intercalate sep ls := by
  intro ls
  induction ls with
  | nil => simp
  | cons y t ih =>
    intro x hx
    rcases List.mem_cons.mp hx with rfl | hx
    · cases t with
      | nil => rw [intercalate_singleton]
      | cons z t' =>
        rw [intercalate_cons_cons]
        exact ((x.prefix_append sep).trans (List.prefix_append _ _)).isInfix
    · cases t with
      | nil => simp at hx
      | cons z t' =>
        rw [intercalate_cons_cons]
        exact (ih x hx).trans (List.suffix_append _ _).isInfix

lemma intercalate_length_le (sep : List Char) (m : ℕ) :
    ∀ (ls : List (List Char)), (∀ x ∈ ls, x.length ≤ m) →
      (List.intercalate sep ls).length ≤ ls.length * (m + sep.length) := by
  intro ls
  induction ls with
  | nil => intro _; simp [List.intercalate]
  | cons x t ih =>
    intro h
    cases t with
    | nil =>
      rw [intercalate_singleton]
      have := h x (by simp)
      simp only [List.length_cons, List.length_nil]
      nlinarith
    | cons y t' =>
      rw [intercalate_cons_cons]
      have hx := h x (by simp)
      have ht := ih fun z hz => h z (by simp [hz])
      simp only [List.length_append, List.length_cons] at ht ⊢
      nlinarith

lemma abBlock_add (a b : Char) (m k : ℕ) :
    abBlock a b (m + k) = abBlock a b m ++ abBlock a b k := by
  induction m with
  | zero => simp [abBlock_zero]
  | succ m ih =>
    have h1 : m + 1 + k = (m + k) + 1 := by omega
    rw [h1, abBlock_succ, abBlock_succ, ih]
    simp

lemma abBlock_take_even (a b : Char) {m n : ℕ} (h : m ≤ n) (t : List Char) :
    (abBlock a b n ++ t).take (2 * m) = abBlock a b m := by
  have : abBlock a b n = abBlock a b m ++ abBlock a b (n - m) := by
    rw [← abBlock_add]; congr 1; omega
  rw [this, List.append_assoc]
  have hlen : (abBlock a b m).length = 2 * m := abBlock_length a b m
  rw [← hlen, List.take_left]

lemma abBlock_take_odd (a b : Char) {m n : ℕ} (h : m < n) (t : List Char) :
    (abBlock a b n ++ t).take (2 * m + 1) = abBlock a b m ++ [a] := by
  have : abBlock a b n = abBlock a b m ++ abBlock a b (n - m) := by
    rw [← abBlock_add]; congr 1; omega
  rw [this, List.append_assoc]
  have hlen : (abBlock a b m).length = 2 * m := abBlock_length a b m
  have hsucc : abBlock a b (n - m) = a :: b :: abBlock a b (n - m - 1) := by
    have h1 : n - m = (n - m - 1) + 1 := by omega
    conv_lhs => rw [h1]
    rw [abBlock_succ]
  calc (abBlock a b m ++ (abBlock a b (n - m) ++ t)).take (2 * m + 1)
      = abBlock a b m ++ (abBlock a b (n - m) ++ t).take 1 := by
        rw [← hlen, List.take_append]
    _ = abBlock a b m ++ [a] := by rw [hsucc]; simp

lemma count_abBlock_self {a b : Char} (hab : a ≠ b) :
    ∀ n, (abBlock a b n).count a = n := by
  intro n
  induction n with
  | zero => simp [abBlock_zero]
  | succ n ih =>
    rw [abBlock_succ]
    simp [List.count_cons, ih, hab, Ne.symm hab]

lemma count_abBlock_other {a b c : Char} (hca : c ≠ a) (hcb : c ≠ b) :
    ∀ n, (abBlock a b n).count c = 0 := by
  intro n
  induction n with
  | zero => simp [abBlock_zero]
  | succ n ih =>
    rw [abBlock_succ]
    simp [List.count_cons, ih, hca, hcb]

/-! ## Explicit character lists for the pattern literals -/

lemma data_education : "education".data = ['e','d','u','c','a','t','i','o','n'] := rfl

lemma data_academic : "academic".data = ['a','c','a','d','e','m','i','c'] := rfl

lemma data_degree : "degree".data = ['d','e','g','r','e','e'] := rfl

lemma data_university : "university".data = ['u','n','i','v','e','r','s','i','t','y'] := rfl

lemma data_college : "college".data = ['c','o','l','l','e','g','e'] := rfl

lemma data_school : "school".data = ['s','c','h','o','o','l'] := rfl

lemma data_experience : "experience".data = ['e','x','p','e','r','i','e','n','c','e'] := rfl

lemma data_work : "work".data = ['w','o','r','k'] := rfl

lemma data_employment : "employment".data = ['e','m','p','l','o','y','m','e','n','t'] := rfl

lemma data_professional : "professional".data = ['p','r','o','f','e','s','s','i','o','n','a','l'] := rfl

lemma data_career : "career".data = ['c','a','r','e','e','r'] := rfl

lemma data_skills : "skills".data = ['s','k','i','l','l','s'] := rfl

lemma data_competencies : "competencies".data = ['c','o','m','p','e','t','e','n','c','i','e','s'] := rfl

lemma data_technologies : "technologies".data = ['t','e','c','h','n','o','l','o','g','i','e','s'] := rfl

lemma data_technical : "technical".data = ['t','e','c','h','n','i','c','a','l'] := rfl

lemma icasePrefix_head_ne {p : Char} (ps : List Char) {c : Char} (cs : List Char)
    (h : ¬ lowerChar c = p) : icasePrefix (p :: ps) (c :: cs) = false := by
  simp [icasePrefix, h]

lemma icasePrefix_self_append (p r : List Char)
    (h : ∀ c ∈ p, lowerChar c = c) : icasePrefix p (p ++ r) = true := by
  induction p with
  | nil => simp [icasePrefix]
  | cons c p' ih =>
    simp [List.cons_append, icasePrefix, h c (by simp),
      ih fun x hx => h x (by simp [hx])]

/-- The block alphabet `{x, y, q, z}` matches no first character of any
education-pattern-1 alternative. -/
lemma eduPat1At_block_head {c : Char} (t : List Char)
    (hc : c = 'x' ∨ c = 'y' ∨ c = 'q' ∨ c = 'z') : eduPat1At (c :: t) = false := by
  rcases hc with rfl | rfl | rfl | rfl <;>
    simp [eduPat1At, data_education, data_academic, data_degree,
      data_university, data_college, data_school, icasePrefix_head_ne, lowerChar]

/-- The block alphabet matches no first character of any
experience-pattern-1 alternative. -/
lemma expPat1At_block_head {c : Char} (t : List Char)
    (hc : c = 'x' ∨ c = 'y' ∨ c = 'q' ∨ c = 'z') : expPat1At (c :: t) = false := by
  rcases hc with rfl | rfl | rfl | rfl <;>
    simp [expPat1At, data_experience, data_work, data_employment,
      data_professional, data_career, icasePrefix_head_ne, lowerChar]

/-- The block alphabet matches no first character of any
skills-pattern-1 alternative. -/
lemma skillsPat1At_block_head {c : Char} (t : List Char)
    (hc : c = 'x' ∨ c = 'y' ∨ c = 'q' ∨ c = 'z') : skillsPat1At (c :: t) = false := by
  rcases hc with rfl | rfl | rfl | rfl <;>
    simp [skillsPat1At, data_skills, data_competencies, data_technologies,
      data_technical, icasePrefix_head_ne, lowerChar]

lemma searchAux_skip_abBlock {a b : Char} (m : List Char → Bool)
    (ha : a = 'x' ∨ a = 'y' ∨ a = 'q' ∨ a = 'z')
    (hb : b = 'x' ∨ b = 'y' ∨ b = 'q' ∨ b = 'z')
    (hm : ∀ (c : Char) (t : List Char),
      (c = 'x' ∨ c = 'y' ∨ c = 'q' ∨ c = 'z') → m (c :: t) = false)
    (n : ℕ) (t : List Char) :
    jsSearchAux m (abBlock a b n ++ t) = (jsSearchAux m t).map (· + 2 * n) := by
  have := searchAux_append_skip m (abBlock a b n) t fun q hq hne => by
    obtain ⟨c, q', rfl, hc⟩ := suffix_abBlock_head n hq hne
    rcases hc with rfl | rfl
    · exact hm _ (q' ++ t) ha
    · exact hm _ (q' ++ t) hb
  rw [this, abBlock_length]

lemma abBlock_xy2000 :
    abBlock 'x' 'y' 2000 = 'x' :: 'y' :: abBlock 'x' 'y' 1999 := by
  rw [show (2000 : ℕ) = 1999 + 1 from rfl, abBlock_succ]

lemma searchAux_eq_zero (m : List Char → Bool) (l : List Char)
    (h : m l = true) (hne : l ≠ []) : jsSearchAux m l = some 0 := by
  cases l with
  | nil => exact absurd rfl hne
  | cons c t => exact searchAux_cons_true m c t h

lemma search_exp_bigC6 : jsSearchAux expPat1At bigC6 = some 154000 := by
  rw [bigC6, searchAux_skip_abBlock expPat1At (Or.inl rfl) (Or.inr (Or.inl rfl))
    (fun c t hc => expPat1At_block_head t hc) 77000]
  rw [searchAux_eq_zero expPat1At _ ?_ (by simp)]
  · simp
  · simp [expPat1At, data_experience, icasePrefix, lowerChar]

lemma search_edu_bigC6 : jsSearchAux eduPat1At bigC6 = some 158010 := by
  rw [bigC6, searchAux_skip_abBlock eduPat1At (Or.inl rfl) (Or.inr (Or.inl rfl))
    (fun c t hc => eduPat1At_block_head t hc) 77000]
  rw [data_experience, abBlock_xy2000]
  simp only [List.cons_append, List.nil_append]
  rw [searchAux_cons_false eduPat1At 'e' _ (by
    simp [eduPat1At, data_education, data_academic, data_degree,
      data_university, data_college, data_school, icasePrefix, lowerChar])]
  rw [searchAux_cons_false eduPat1At 'x' _ (by
    simp [eduPat1At, data_education, data_academic, data_degree,
      data_university, data_college, data_school, icasePrefix, lowerChar])]
  rw [searchAux_cons_false eduPat1At 'p' _ (by
    simp [eduPat1At, data_education, data_academic, data_degree,
      data_university, data_college, data_school, icasePrefix, lowerChar])]
  rw [searchAux_cons_false eduPat1At 'e' _ (by
    simp [eduPat1At, data_education, data_academic, data_degree,
      data_university, data_college, data_school, icasePrefix, lowerChar])]
  rw [searchAux_cons_false eduPat1At 'r' _ (by
    simp [eduPat1At, data_education, data_academic, data_degree,
      data_university, data_college, data_school, icasePrefix, lowerChar])]
  rw [searchAux_cons_false eduPat1At 'i' _ (by
    simp [eduPat1At, data_education, data_academic, data_degree,
      data_university, data_college, data_school, icasePrefix, lowerChar])]
  rw [searchAux_cons_false eduPat1At 'e' _ (by
    simp [eduPat1At, data_education, data_academic, data_degree,
      data_university, data_college, data_school, icasePrefix, lowerChar])]
  rw [searchAux_cons_false eduPat1At 'n' _ (by
    simp [eduPat1At, data_education, data_academic, data_degree,
      data_university, data_college, data_school, icasePrefix, lowerChar])]
  rw [searchAux_cons_false eduPat1At 'c' _ (by
    simp [eduPat1At, data_education, data_academic, data_degree,
      data_university, data_college, data_school, icasePrefix, lowerChar])]
  rw [searchAux_cons_false eduPat1At 'e' _ (by
    simp [eduPat1At, data_education, data_academic, data_degree,
      data_university, data_college, data_school, icasePrefix, lowerChar])]
  rw [searchAux_cons_false eduPat1At 'x' _ (by
    exact eduPat1At_block_head _ (Or.inl rfl))]
  rw [searchAux_cons_false eduPat1At 'y' _ (by
    exact eduPat1At_block_head _ (Or.inr (Or.inl rfl)))]
  rw [searchAux_skip_abBlock eduPat1At (Or.inl rfl) (Or.inr (Or.inl rfl))
    (fun c t hc => eduPat1At_block_head t hc) 1999]
  rw [searchAux_eq_zero eduPat1At _ ?_ (by simp)]
  · simp
  · simp [eduPat1At, data_education, icasePrefix, lowerChar]

lemma search_skills_bigC6 : jsSearchAux skillsPat1At bigC6 = some 161019 := by
  rw [bigC6, searchAux_skip_abBlock skillsPat1At (Or.inl rfl) (Or.inr (Or.inl rfl))
    (fun c t hc => skillsPat1At_block_head t hc) 77000]
  rw [data_experience, abBlock_xy2000]
  simp only [List.cons_append, List.nil_append]
  rw [searchAux_cons_false skillsPat1At 'e' _ (by
    simp [skillsPat1At, data_skills, data_competencies, data_technologies,
      data_technical, icasePrefix, lowerChar, wsPlusThen])]
  rw [searchAux_cons_false skillsPat1At 'x' _ (by
    simp [skillsPat1At, data_skills, data_competencies, data_technologies,
      data_technical, icasePrefix, lowerChar, wsPlusThen])]
  rw [searchAux_cons_false skillsPat1At 'p' _ (by
    simp [skillsPat1At, data_skills, data_competencies, data_technologies,
      data_technical, icasePrefix, lowerChar, wsPlusThen])]
  rw [searchAux_cons_false skillsPat1At 'e' _ (by
    simp [skillsPat1At, data_skills, data_competencies, data_technologies,
      data_technical, icasePrefix, lowerChar, wsPlusThen])]
  rw [searchAux_cons_false skillsPat1At 'r' _ (by
    simp [skillsPat1At, data_skills, data_competencies, data_technologies,
      data_technical, icasePrefix, lowerChar, wsPlusThen])]
  rw [searchAux_cons_false skillsPat1At 'i' _ (by
    simp [skillsPat1At, data_skills, data_competencies, data_technologies,
      data_technical, icasePrefix, lowerChar, wsPlusThen])]
  rw [searchAux_cons_false skillsPat1At 'e' _ (by
    simp [skillsPat1At, data_skills, data_competencies, data_technologies,
      data_technical, icasePrefix, lowerChar, wsPlusThen])]
  rw [searchAux_cons_false skillsPat1At 'n' _ (by
    simp [skillsPat1At, data_skills, data_competencies, data_technologies,
      data_technical, icasePrefix, lowerChar, wsPlusThen])]
  rw [searchAux_cons_false skillsPat1At 'c' _ (by
    simp [skillsPat1At, data_skills, data_competencies, data_technologies,
      data_technical, icasePrefix, lowerChar, wsPlusThen])]
  rw [searchAux_cons_false skillsPat1At 'e' _ (by
    simp [skillsPat1At, data_skills, data_competencies, data_technologies,
      data_technical, icasePrefix, lowerChar, wsPlusThen])]
  rw [searchAux_cons_false skillsPat1At 'x' _ (by
    exact skillsPat1At_block_head _ (Or.inl rfl))]
  rw [searchAux_cons_false skillsPat1At 'y' _ (by
    exact skillsPat1At_block_head _ (Or.inr (Or.inl rfl)))]
  rw [searchAux_skip_abBlock skillsPat1At (Or.inl rfl) (Or.inr (Or.inl rfl))
    (fun c t hc => skillsPat1At_block_head t hc) 1999]
  rw [searchAux_cons_false skillsPat1At 'e' _ (by
    simp [skillsPat1At, data_skills, data_competencies, data_technologies,
      data_technical, icasePrefix, lowerChar, wsPlusThen])]
  rw [searchAux_cons_false skillsPat1At 'd' _ (by
    simp [skillsPat1At, data_skills, data_competencies, data_technologies,
      data_technical, icasePrefix, lowerChar, wsPlusThen])]
  rw [searchAux_cons_false skillsPat1At 'u' _ (by
    simp [skillsPat1At, data_skills, data_competencies, data_technologies,
      data_technical, icasePrefix, lowerChar, wsPlusThen])]
  rw [searchAux_cons_false skillsPat1At 'c' _ (by
    simp [skillsPat1At, data_skills, data_competencies, data_technologies,
      data_technical, icasePrefix, lowerChar, wsPlusThen])]
  rw [searchAux_cons_false skillsPat1At 'a' _ (by
    simp [skillsPat1At, data_skills, data_competencies, data_technologies,
      data_technical, icasePrefix, lowerChar, wsPlusThen])]
  rw [searchAux_cons_false skillsPat1At 't' _ (by
    simp [skillsPat1At, data_skills, data_competencies, data_technologies,
      data_technical, icasePrefix, lowerChar, wsPlusThen])]
  rw [searchAux_cons_false skillsPat1At 'i' _ (by
    simp [skillsPat1At, data_skills, data_competencies, data_technologies,
      data_technical, icasePrefix, lowerChar, wsPlusThen])]
  rw [searchAux_cons_false skillsPat1At 'o' _ (by
    simp [skillsPat1At, data_skills, data_competencies, data_technologies,
      data_technical, icasePrefix, lowerChar, wsPlusThen])]
  rw [searchAux_cons_false skillsPat1At 'n' _ (by
    simp [skillsPat1At, data_skills, data_competencies, data_technologies,
      data_technical, icasePrefix, lowerChar, wsPlusThen])]
  rw [searchAux_skip_abBlock skillsPat1At (Or.inr (Or.inr (Or.inl rfl)))
    (Or.inr (Or.inr (Or.inr rfl)))
    (fun c t hc => skillsPat1At_block_head t hc) 1500]
  rw [searchAux_eq_zero skillsPat1At _ ?_ (by simp)]
  · simp
  · simp [skillsPat1At, data_skills, data_competencies, icasePrefix, lowerChar]

lemma jsSubstring_of_le (l : List Char) (s e : ℕ) (hse : s ≤ e)
    (hel : e ≤ l.length) :
    jsSubstring l s e = (l.drop s).take (e - s) := by
  simp only [jsSubstring]
  have h1 : min (max (s : ℤ) 0) (l.length : ℤ) = (s : ℤ) := by omega
  have h2 : min (max (e : ℤ) 0) (l.length : ℤ) = (e : ℤ) := by omega
  rw [h1, h2]
  have h3 : max (s : ℤ) (e : ℤ) = (e : ℤ) := by omega
  have h4 : min (s : ℤ) (e : ℤ) = (s : ℤ) := by omega
  rw [h3, h4, Int.toNat_natCast, Int.toNat_natCast, List.drop_take]

lemma jsSubstring_zero_of_ge (l : List Char) (e : ℤ)
    (he : (l.length : ℤ) ≤ e) : jsSubstring l 0 e = l := by
  simp only [jsSubstring]
  have h1 : min (max (0 : ℤ) 0) (l.length : ℤ) = 0 := by omega
  have h2 : min (max e 0) (l.length : ℤ) = (l.length : ℤ) := by omega
  rw [h1, h2]
  have h3 : max (0 : ℤ) (l.length : ℤ) = (l.length : ℤ) := by omega
  have h4 : min (0 : ℤ) (l.length : ℤ) = 0 := by omega
  rw [h3, h4, Int.toNat_natCast]
  simp

lemma jsSubstring_zero_of_nonneg (l : List Char) (e : ℕ) :
    jsSubstring l 0 e = l.take e := by
  rcases le_or_lt (e : ℤ) (l.length : ℤ) with h | h
  · have := jsSubstring_of_le l 0 e (by omega) (by omega)
    simpa using this
  · rw [jsSubstring_zero_of_ge l e (by omega), List.take_of_length_le (by omega)]

lemma extractSection_eq (content : List Char) (s maxLength : ℕ)
    (h : s + maxLength ≤ content.length) :
    extractSection content s maxLength
      = jsTrim ((content.drop s).take maxLength) := by
  rw [extractSection]
  have h1 : min ((s : ℤ) + (maxLength : ℕ)) (content.length : ℤ)
      = ((s + maxLength : ℕ) : ℤ) := by push_cast; omega
  rw [h1, jsSubstring_of_le content s (s + maxLength) (by omega) h]
  congr 2
  omega

lemma collapseRepeats_chain_append :
    ∀ (ms t : List Char), List.Chain' (fun a b => b ≠ a) (ms ++ t.take 1) →
      collapseRepeats (ms ++ t) = ms ++ collapseRepeats t := by
  intro ms
  induction ms with
  | nil => intro t _; simp
  | cons m ms' ih =>
    intro t h
    cases ms' with
    | nil =>
      simp only [List.nil_append, List.singleton_append] at h ⊢
      apply collapseRepeats_head_step
      intro x hx
      cases t with
      | nil => simp at hx
      | cons c t' =>
        simp only [List.take_cons_succ, List.take_zero] at h
        simp only [List.head?_cons, Option.some.injEq] at hx
        subst hx
        exact (List.chain'_cons.mp h).1
    | cons m2 ms'' =>
      have h' : List.Chain' (fun a b => b ≠ a) (m :: m2 :: (ms'' ++ t.take 1)) := by
        simpa using h
      rw [List.chain'_cons] at h'
      simp only [List.cons_append]
      rw [collapseRepeats_cons_ne h'.1]
      have := ih t (by simpa using h'.2)
      simp only [List.cons_append] at this
      rw [this]

lemma bigC6_length : bigC6.length = 164031 := by
  rw [bigC6]
  simp only [List.length_append, abBlock_length, data_experience,
    data_education, data_competencies, List.length_cons, List.length_nil]

lemma bigC6_mem : ∀ c ∈ bigC6, (c = 'x' ∨ c = 'y' ∨ c = 'q' ∨ c = 'z') ∨
    c ∈ "experience".data ∨ c ∈ "education".data ∨ c ∈ "competencies".data := by
  intro c hc
  simp only [bigC6, List.mem_append] at hc
  rcases hc with hc | hc | hc | hc | hc | hc | hc
  · rcases abBlock_mem _ _ _ c hc with rfl | rfl
    · exact Or.inl (Or.inl rfl)
    · exact Or.inl (Or.inr (Or.inl rfl))
  · exact Or.inr (Or.inl hc)
  · rcases abBlock_mem _ _ _ c hc with rfl | rfl
    · exact Or.inl (Or.inl rfl)
    · exact Or.inl (Or.inr (Or.inl rfl))
  · exact Or.inr (Or.inr (Or.inl hc))
  · rcases abBlock_mem _ _ _ c hc with rfl | rfl
    · exact Or.inl (Or.inr (Or.inr (Or.inl rfl)))
    · exact Or.inl (Or.inr (Or.inr (Or.inr rfl)))
  · exact Or.inr (Or.inr (Or.inr hc))
  · rcases abBlock_mem _ _ _ c hc with rfl | rfl
    · exact Or.inl (Or.inl rfl)
    · exact Or.inl (Or.inr (Or.inl rfl))

lemma bigC6_no_ws : ∀ c ∈ bigC6, isJsWs c = false := by
  have h1 : ∀ c ∈ "experience".data, isJsWs c = false := by decide
  have h2 : ∀ c ∈ "education".data, isJsWs c = false := by decide
  have h3 : ∀ c ∈ "competencies".data, isJsWs c = false := by decide
  intro c hc
  rcases bigC6_mem c hc with h | h | h | h
  · rcases h with rfl | rfl | rfl | rfl <;> decide
  · exact h1 c h
  · exact h2 c h
  · exact h3 c h

lemma bigC6_ascii : ∀ c ∈ bigC6, keepAsciiChar c = true := by
  have h1 : ∀ c ∈ "experience".data, keepAsciiChar c = true := by decide
  have h2 : ∀ c ∈ "education".data, keepAsciiChar c = true := by decide
  have h3 : ∀ c ∈ "competencies".data, keepAsciiChar c = true := by decide
  intro c hc
  rcases bigC6_mem c hc with h | h | h | h
  · rcases h with rfl | rfl | rfl | rfl <;> decide
  · exact h1 c h
  · exact h2 c h
  · exact h3 c h

lemma abBlock_append_head {a b : Char} {n : ℕ} (hn : 0 < n) (r : List Char) :
    (abBlock a b n ++ r).head? = some a := by
  obtain ⟨m, rfl⟩ : ∃ m, n = m + 1 := ⟨n - 1, by omega⟩
  rw [abBlock_succ]
  rfl

lemma abBlock_append_take_one {a b : Char} {n : ℕ} (hn : 0 < n)
    (r : List Char) : (abBlock a b n ++ r).take 1 = [a] := by
  obtain ⟨m, rfl⟩ : ∃ m, n = m + 1 := ⟨n - 1, by omega⟩
  rw [abBlock_succ]
  rfl

lemma abBlock_take_one {a b : Char} {n : ℕ} (hn : 0 < n) :
    (abBlock a b n).take 1 = [a] := by
  have := abBlock_append_take_one (a := a) (b := b) hn []
  simpa using this

lemma collapseRepeats_bigC6 : collapseRepeats bigC6 = bigC6 := by
  have hF3 : collapseRepeats (abBlock 'x' 'y' 1500) = abBlock 'x' 'y' 1500 := by
    have := collapseRepeats_abBlock (a := 'x') (b := 'y') (by decide)
      (t := []) (by simp) 1500
    simpa [collapseRepeats_nil] using this
  have hT5 : collapseRepeats ("competencies".data ++ abBlock 'x' 'y' 1500)
      = "competencies".data ++ abBlock 'x' 'y' 1500 := by
    rw [collapseRepeats_chain_append "competencies".data (abBlock 'x' 'y' 1500)
      ?hc, hF3]
    case hc =>
      rw [abBlock_take_one (by norm_num)]
      simp only [data_competencies, List.cons_append, List.nil_append,
        List.chain'_cons, List.chain'_singleton]
      decide
  have hT4 : collapseRepeats (abBlock 'q' 'z' 1500 ++
        ("competencies".data ++ abBlock 'x' 'y' 1500))
      = abBlock 'q' 'z' 1500 ++ ("competencies".data ++ abBlock 'x' 'y' 1500) := by
    rw [collapseRepeats_abBlock (by decide) ?ht 1500, hT5]
    case ht =>
      intro x hx
      rw [data_competencies] at hx
      simp only [List.cons_append, List.head?_cons, Option.some.injEq] at hx
      subst hx
      exact ⟨by decide, by decide⟩
  have hT3 : collapseRepeats ("education".data ++ (abBlock 'q' 'z' 1500 ++
        ("competencies".data ++ abBlock 'x' 'y' 1500)))
      = "education".data ++ (abBlock 'q' 'z' 1500 ++
        ("competencies".data ++ abBlock 'x' 'y' 1500)) := by
    rw [collapseRepeats_chain_append "education".data _ ?hc, hT4]
    case hc =>
      rw [abBlock_append_take_one (by norm_num)]
      simp only [data_education, List.cons_append, List.nil_append,
        List.chain'_cons, List.chain'_singleton]
      decide
  have hT2 : collapseRepeats (abBlock 'x' 'y' 2000 ++ ("education".data ++
        (abBlock 'q' 'z' 1500 ++ ("competencies".data ++ abBlock 'x' 'y' 1500))))
      = abBlock 'x' 'y' 2000 ++ ("education".data ++ (abBlock 'q' 'z' 1500 ++
        ("competencies".data ++ abBlock 'x' 'y' 1500))) := by
    rw [collapseRepeats_abBlock (by decide) ?ht 2000, hT3]
    case ht =>
      intro x hx
      rw [data_education] at hx
      simp only [List.cons_append, List.head?_cons, Option.some.injEq] at hx
      subst hx
      exact ⟨by decide, by decide⟩
  have hT1 : collapseRepeats ("experience".data ++ (abBlock 'x' 'y' 2000 ++
        ("education".data ++ (abBlock 'q' 'z' 1500 ++
          ("competencies".data ++ abBlock 'x' 'y' 1500)))))
      = "experience".data ++ (abBlock 'x' 'y' 2000 ++ ("education".data ++
          (abBlock 'q' 'z' 1500 ++ ("competencies".data ++ abBlock 'x' 'y' 1500)))) := by
    rw [collapseRepeats_chain_append "experience".data _ ?hc, hT2]
    case hc =>
      rw [abBlock_append_take_one (by norm_num)]
      simp only [data_experience, List.cons_append, List.nil_append,
        List.chain'_cons, List.chain'_singleton]
      decide
  rw [bigC6, collapseRepeats_abBlock (by decide) ?ht 77000, hT1]
  case ht =>
    intro x hx
    rw [data_experience] at hx
    simp only [List.cons_append, List.head?_cons, Option.some.injEq] at hx
    subst hx
    exact ⟨by decide, by decide⟩

lemma cleanResumeContent_bigC6 : cleanResumeContent bigC6 = bigC6 := by
  rw [cleanResumeContent, collapseWs_of_no_ws bigC6_no_ws,
    List.filter_eq_self.mpr bigC6_ascii, collapseRepeats_bigC6,
    jsTrim_of_no_ws bigC6_no_ws]

lemma drop_bigC6_154000 :
    bigC6.drop 154000 = "experience".data ++ (abBlock 'x' 'y' 2000 ++
      ("education".data ++ (abBlock 'q' 'z' 1500 ++
        ("competencies".data ++ abBlock 'x' 'y' 1500)))) := by
  rw [bigC6, show (154000 : ℕ) = (abBlock 'x' 'y' 77000).length from by
    rw [abBlock_length], List.drop_left]

lemma drop_bigC6_158010 :
    bigC6.drop 158010 = "education".data ++ (abBlock 'q' 'z' 1500 ++
      ("competencies".data ++ abBlock 'x' 'y' 1500)) := by
  have h1 : bigC6.drop 158010 = (bigC6.drop 154000).drop 4010 := by
    rw [List.drop_drop]
  rw [h1, drop_bigC6_154000,
    show (4010 : ℕ) = ("experience".data).length + 4000 from rfl,
    List.drop_append,
    show (4000 : ℕ) = (abBlock 'x' 'y' 2000).length + 0 from by
      rw [abBlock_length],
    List.drop_append]
  rfl

lemma drop_bigC6_161019 :
    bigC6.drop 161019 = "competencies".data ++ abBlock 'x' 'y' 1500 := by
  have h1 : bigC6.drop 161019 = (bigC6.drop 158010).drop 3009 := by
    rw [List.drop_drop]
  rw [h1, drop_bigC6_158010,
    show (3009 : ℕ) = ("education".data).length + 3000 from rfl,
    List.drop_append,
    show (3000 : ℕ) = (abBlock 'q' 'z' 1500).length + 0 from by
      rw [abBlock_length],
    List.drop_append]
  rfl

lemma expSection_bigC6 :
    extractExperienceSection bigC6
      = "experience".data ++ abBlock 'x' 'y' 1995 := by
  rw [extractExperienceSection, search_exp_bigC6]
  show extractSection bigC6 154000 4000 = _
  rw [extractSection_eq bigC6 154000 4000 (by rw [bigC6_length]; norm_num)]
  rw [drop_bigC6_154000,
    show (4000 : ℕ) = ("experience".data).length + 3990 from rfl,
    List.take_append,
    abBlock_take_even 'x' 'y' (by norm_num : (1995 : ℕ) ≤ 2000)]
  apply jsTrim_of_no_ws
  intro c hc
  rcases List.mem_append.mp hc with h | h
  · exact (by decide : ∀ c ∈ "experience".data, isJsWs c = false) c h
  · rcases abBlock_mem _ _ _ c h with rfl | rfl <;> decide

lemma eduSection_bigC6 :
    extractEducationSection bigC6
      = "education".data ++ (abBlock 'q' 'z' 1495 ++ ['q']) := by
  rw [extractEducationSection, search_edu_bigC6]
  show extractSection bigC6 158010 3000 = _
  rw [extractSection_eq bigC6 158010 3000 (by rw [bigC6_length]; norm_num)]
  rw [drop_bigC6_158010,
    show (3000 : ℕ) = ("education".data).length + 2991 from rfl,
    List.take_append,
    show (2991 : ℕ) = 2 * 1495 + 1 from rfl,
    abBlock_take_odd 'q' 'z' (by norm_num : (1495 : ℕ) < 1500)]
  apply jsTrim_of_no_ws
  intro c hc
  rcases List.mem_append.mp hc with h | h
  · exact (by decide : ∀ c ∈ "education".data, isJsWs c = false) c h
  · rcases List.mem_append.mp h with h2 | h2
    · rcases abBlock_mem _ _ _ c h2 with rfl | rfl <;> decide
    · rcases List.mem_singleton.mp h2 with rfl
      decide

lemma skillsSection_bigC6 :
    extractSkillsSection bigC6
      = "competencies".data ++ abBlock 'x' 'y' 1494 := by
  rw [extractSkillsSection, search_skills_bigC6]
  show extractSection bigC6 161019 3000 = _
  rw [extractSection_eq bigC6 161019 3000 (by rw [bigC6_length]; norm_num)]
  rw [drop_bigC6_161019,
    show (3000 : ℕ) = ("competencies".data).length + 2988 from rfl,
    List.take_append]
  have h1494 : (abBlock 'x' 'y' 1500).take 2988 = abBlock 'x' 'y' 1494 := by
    have := abBlock_take_even (a := 'x') (b := 'y')
      (by norm_num : (1494 : ℕ) ≤ 1500) []
    simpa using this
  rw [show (2988 : ℕ) = 2 * 1494 from rfl] at h1494 ⊢
  rw [h1494]
  apply jsTrim_of_no_ws
  intro c hc
  rcases List.mem_append.mp hc with h | h
  · exact (by decide : ∀ c ∈ "competencies".data, isJsWs c = false) c h
  · rcases abBlock_mem _ _ _ c h with rfl | rfl <;> decide

lemma personal_bigC6 :
    extractSection bigC6 0 1000 = abBlock 'x' 'y' 500 := by
  rw [extractSection_eq bigC6 0 1000 (by rw [bigC6_length]; norm_num)]
  rw [List.drop_zero, bigC6,
    show (1000 : ℕ) = 2 * 500 from rfl,
    abBlock_take_even 'x' 'y' (by norm_num : (500 : ℕ) ≤ 77000)]
  apply jsTrim_of_no_ws
  intro c hc
  rcases abBlock_mem _ _ _ c hc with rfl | rfl <;> decide

lemma abBlock_isEmpty_false (a b : Char) {n : ℕ} (hn : 0 < n) :
    (abBlock a b n).isEmpty = false := by
  obtain ⟨m, rfl⟩ : ∃ m, n = m + 1 := ⟨n - 1, by omega⟩
  rw [abBlock_succ]
  rfl

lemma jsSubstring_zero_1500 (l : List Char) :
    jsSubstring l 0 1500 = l.take 1500 := by
  simpa using jsSubstring_zero_of_nonneg l 1500

lemma take_eduSection_1500 :
    ('e' :: 'd' :: 'u' :: 'c' :: 'a' :: 't' :: 'i' :: 'o' :: 'n' :: (abBlock 'q' 'z' 1495 ++ ['q'])).take 1500 = 'e' :: 'd' :: 'u' :: 'c' :: 'a' :: 't' :: 'i' :: 'o' :: 'n' :: (abBlock 'q' 'z' 745 ++ ['q']) := by
  rw [show ('e' :: 'd' :: 'u' :: 'c' :: 'a' :: 't' :: 'i' :: 'o' :: 'n' :: (abBlock 'q' 'z' 1495 ++ ['q']) : List Char)
      = ['e','d','u','c','a','t','i','o','n'] ++ (abBlock 'q' 'z' 1495 ++ ['q']) from rfl,
    show (1500 : ℕ) = (['e','d','u','c','a','t','i','o','n'] : List Char).length + 1491 from rfl,
    List.take_append,
    show (1491 : ℕ) = 2 * 745 + 1 from rfl,
    abBlock_take_odd 'q' 'z' (by norm_num : (745 : ℕ) < 1495)]
  rfl

lemma take_skillsSection_1500 :
    ('c' :: 'o' :: 'm' :: 'p' :: 'e' :: 't' :: 'e' :: 'n' :: 'c' :: 'i' :: 'e' :: 's' :: abBlock 'x' 'y' 1494).take 1500 = 'c' :: 'o' :: 'm' :: 'p' :: 'e' :: 't' :: 'e' :: 'n' :: 'c' :: 'i' :: 'e' :: 's' :: abBlock 'x' 'y' 744 := by
  have h744 : (abBlock 'x' 'y' 1494).take 1488 = abBlock 'x' 'y' 744 := by
    have := abBlock_take_even 'x' 'y' (by norm_num : (744 : ℕ) ≤ 1494) []
    simpa [show (2 * 744 : ℕ) = 1488 from rfl] using this
  rw [show ('c' :: 'o' :: 'm' :: 'p' :: 'e' :: 't' :: 'e' :: 'n' :: 'c' :: 'i' :: 'e' :: 's' :: abBlock 'x' 'y' 1494 : List Char)
      = ['c','o','m','p','e','t','e','n','c','i','e','s'] ++ abBlock 'x' 'y' 1494 from rfl,
    show (1500 : ℕ)
      = (['c','o','m','p','e','t','e','n','c','i','e','s'] : List Char).length + 1488 from rfl,
    List.take_append, h744]
  rfl

lemma combinedBig_length_le : combinedBig.length ≤ 40000 * 4 := by
  have hb := intercalate_length_le ['\n', '\n'] 5000
    [['=', '=', '=', ' ', 'P', 'E', 'R', 'S', 'O', 'N', 'A', 'L', ' ', 'I', 'N', 'F', 'O', 'R', 'M', 'A', 'T', 'I', 'O', 'N', ' ', '=', '=', '='], abBlock 'x' 'y' 500,
     ['=', '=', '=', ' ', 'W', 'O', 'R', 'K', ' ', 'E', 'X', 'P', 'E', 'R', 'I', 'E', 'N', 'C', 'E', ' ', '=', '=', '='], 'e' :: 'x' :: 'p' :: 'e' :: 'r' :: 'i' :: 'e' :: 'n' :: 'c' :: 'e' :: abBlock 'x' 'y' 1995,
     ['=', '=', '=', ' ', 'E', 'D', 'U', 'C', 'A', 'T', 'I', 'O', 'N', ' ', '=', '=', '='], 'e' :: 'd' :: 'u' :: 'c' :: 'a' :: 't' :: 'i' :: 'o' :: 'n' :: (abBlock 'q' 'z' 745 ++ ['q']),
     ['=', '=', '=', ' ', 'S', 'K', 'I', 'L', 'L', 'S', ' ', '=', '=', '='], 'c' :: 'o' :: 'm' :: 'p' :: 'e' :: 't' :: 'e' :: 'n' :: 'c' :: 'i' :: 'e' :: 's' :: abBlock 'x' 'y' 744] ?_
  · rw [combinedBig]
    refine le_trans hb ?_
    norm_num
  · intro x hx
    simp only [List.mem_cons, List.not_mem_nil, or_false] at hx
    rcases hx with rfl | rfl | rfl | rfl | rfl | rfl | rfl | rfl
    · decide
    · rw [abBlock_length]; norm_num
    · decide
    · simp only [List.length_cons, abBlock_length, List.length_append,
        List.length_nil]
      norm_num
    · decide
    · simp only [List.length_cons, abBlock_length, List.length_append,
        List.length_nil]
      norm_num
    · decide
    · simp only [List.length_cons, abBlock_length, List.length_append,
        List.length_nil]
      norm_num

lemma extractResumeContent_bigC6 : extractResumeContent bigC6 = combinedBig := by
  have h1 : ¬ bigC6.length ≤ 40000 * 4 := by rw [bigC6_length]; norm_num
  have h2 : 40000 * 4 < bigC6.length := by
    rw [bigC6_length]; norm_num
  have e1 : (abBlock 'x' 'y' 500).isEmpty = false :=
    abBlock_isEmpty_false 'x' 'y' (by norm_num)
  simp only [extractResumeContent, resumeSections, h1, if_false,
    cleanResumeContent_bigC6, h2, if_true, personal_bigC6, expSection_bigC6,
    eduSection_bigC6, skillsSection_bigC6, e1, List.isEmpty_cons,
    Bool.false_eq_true, List.cons_append, List.nil_append]
  rw [jsSubstring_zero_of_ge _ _ (by
    simp only [List.length_cons, abBlock_length, List.length_append,
      List.length_nil]
    norm_num)]
  rw [jsSubstring_zero_1500, jsSubstring_zero_1500]
  rw [take_eduSection_1500, take_skillsSection_1500]
  rw [if_neg (by
    have := combinedBig_length_le
    rw [combinedBig] at this
    omega)]
  rw [combinedBig]

lemma count_q_eduSection :
    (extractEducationSection bigC6).count 'q' = 1496 := by
  rw [eduSection_bigC6]
  have hq : (abBlock 'q' 'z' 1495).count 'q' = 1495 :=
    count_abBlock_self (by decide) 1495
  simp [List.count_append, List.count_cons, hq, data_education]

lemma count_q_combinedBig : combinedBig.count 'q' = 746 := by
  have c1 : (abBlock 'x' 'y' 500).count 'q' = 0 :=
    count_abBlock_other (by decide) (by decide) 500
  have c2 : (abBlock 'x' 'y' 1995).count 'q' = 0 :=
    count_abBlock_other (by decide) (by decide) 1995
  have c3 : (abBlock 'q' 'z' 745).count 'q' = 745 :=
    count_abBlock_self (by decide) 745
  have c4 : (abBlock 'x' 'y' 744).count 'q' = 0 :=
    count_abBlock_other (by decide) (by decide) 744
  have k1 : ((['=', '=', '=', ' ', 'P', 'E', 'R', 'S', 'O', 'N', 'A', 'L', ' ', 'I', 'N', 'F', 'O', 'R', 'M', 'A', 'T', 'I', 'O', 'N', ' ', '=', '=', '='] : List Char)).count 'q' = 0 := by decide
  have k3 : ((['=', '=', '=', ' ', 'W', 'O', 'R', 'K', ' ', 'E', 'X', 'P', 'E', 'R', 'I', 'E', 'N', 'C', 'E', ' ', '=', '=', '='] : List Char)).count 'q' = 0 := by decide
  have k5 : ((['=', '=', '=', ' ', 'E', 'D', 'U', 'C', 'A', 'T', 'I', 'O', 'N', ' ', '=', '=', '='] : List Char)).count 'q' = 0 := by decide
  have k7 : ((['=', '=', '=', ' ', 'S', 'K', 'I', 'L', 'L', 'S', ' ', '=', '=', '='] : List Char)).count 'q' = 0 := by decide
  have hsep : ((['\n', '\n'] : List Char)).count 'q' = 0 := by decide
  have k4 : (('e' :: 'x' :: 'p' :: 'e' :: 'r' :: 'i' :: 'e' :: 'n' :: 'c' :: 'e' :: abBlock 'x' 'y' 1995 : List Char)).count 'q' = 0 := by
    rw [show ('e' :: 'x' :: 'p' :: 'e' :: 'r' :: 'i' :: 'e' :: 'n' :: 'c' :: 'e' :: abBlock 'x' 'y' 1995 : List Char)
        = ['e', 'x', 'p', 'e', 'r', 'i', 'e', 'n', 'c', 'e'] ++ abBlock 'x' 'y' 1995 from rfl, List.count_append, c2]
    decide
  have k6 : (('e' :: 'd' :: 'u' :: 'c' :: 'a' :: 't' :: 'i' :: 'o' :: 'n' :: (abBlock 'q' 'z' 745 ++ ['q']) : List Char)).count 'q' = 746 := by
    rw [show ('e' :: 'd' :: 'u' :: 'c' :: 'a' :: 't' :: 'i' :: 'o' :: 'n' :: (abBlock 'q' 'z' 745 ++ ['q']) : List Char)
        = ['e', 'd', 'u', 'c', 'a', 't', 'i', 'o', 'n'] ++ (abBlock 'q' 'z' 745 ++ ['q']) from rfl,
      List.count_append, List.count_append, c3]
    decide
  have k8 : (('c' :: 'o' :: 'm' :: 'p' :: 'e' :: 't' :: 'e' :: 'n' :: 'c' :: 'i' :: 'e' :: 's' :: abBlock 'x' 'y' 744 : List Char)).count 'q' = 0 := by
    rw [show ('c' :: 'o' :: 'm' :: 'p' :: 'e' :: 't' :: 'e' :: 'n' :: 'c' :: 'i' :: 'e' :: 's' :: abBlock 'x' 'y' 744 : List Char)
        = ['c', 'o', 'm', 'p', 'e', 't', 'e', 'n', 'c', 'i', 'e', 's'] ++ abBlock 'x' 'y' 744 from rfl, List.count_append, c4]
    decide
  rw [combinedBig]
  rw [intercalate_cons_cons, intercalate_cons_cons, intercalate_cons_cons,
    intercalate_cons_cons, intercalate_cons_cons, intercalate_cons_cons,
    intercalate_cons_cons, intercalate_singleton]
  simp only [List.count_append, k1, k3, k5, k7, hsep, k4, k6, k8, c1]

lemma eduSection_bigC6_length :
    (extractEducationSection bigC6).length = 3000 := by
  rw [eduSection_bigC6]
  simp [List.length_append, abBlock_length, data_education]

/-- Counterexample to C6 as stated: for the concrete over-budget input
`bigC6`, the located education section holds exactly 3,000 characters, yet
its first 3,000 characters do **not** appear in the reduced content — the
code only includes `substring(0, 1500)` of the extracted section
(resumes.ts line 549). The count of `'q'` characters separates the two:
the 3,000-character section contains 1,496 of them, the entire reduced
content only 746. -/
theorem education_take3000_not_infix :
    160000 < (cleanResumeContent bigC6).length ∧
    (extractEducationSection (cleanResumeContent bigC6)).length = 3000 ∧
    ¬ ((extractEducationSection (cleanResumeContent bigC6)).take 3000 <:+:
        extractResumeContent bigC6) := by
  rw [cleanResumeContent_bigC6]
  refine ⟨by rw [bigC6_length]; norm_num, eduSection_bigC6_length, ?_⟩
  intro hinf
  have hcle := hinf.sublist.count_le 'q'
  rw [List.take_of_length_le (by rw [eduSection_bigC6_length])] at hcle
  rw [count_q_eduSection, extractResumeContent_bigC6, count_q_combinedBig]
    at hcle
  omega

lemma jsTrim_length_le (l : List Char) : (jsTrim l).length ≤ l.length := by
  rw [jsTrim]
  have h1 := (List.dropWhile_sublist (l := l) (p := isJsWs)).length_le
  have h2 := (List.dropWhile_sublist (l := (l.dropWhile isJsWs).reverse)
    (p := isJsWs)).length_le
  simp only [List.length_reverse] at h2 ⊢
  omega

lemma extractSection_length_le (c : List Char) (s m : ℕ) :
    (extractSection c s m).length ≤ m := by
  rw [extractSection]
  refine le_trans (jsTrim_length_le _) ?_
  simp only [jsSubstring, List.length_drop, List.length_take]
  omega

lemma extractEducationSection_length_le (c : List Char) :
    (extractEducationSection c).length ≤ 3000 := by
  rw [extractEducationSection]
  split
  · exact extractSection_length_le _ _ _
  · split
    · exact extractSection_length_le _ _ _
    · split
      · exact extractSection_length_le _ _ _
      · simp

lemma extractSkillsSection_length_le (c : List Char) :
    (extractSkillsSection c).length ≤ 3000 := by
  rw [extractSkillsSection]
  split
  · exact extractSection_length_le _ _ _
  · split
    · exact extractSection_length_le _ _ _
    · split
      · exact extractSection_length_le _ _ _
      · simp

lemma resumeSections_mem_le (cc : List Char) :
    ∀ x ∈ resumeSections cc, x.length ≤ 5000 := by
  intro x hx
  have hsub : ∀ (l : List Char) (e : ℕ),
      (jsSubstring l 0 (e : ℤ)).length ≤ e := fun l e => by
    have := jsSubstring_zero_length_le l e (by positivity)
    omega
  simp only [resumeSections, List.append_assoc, List.mem_append] at hx
  rcases hx with hx | hx | hx | hx
  · split at hx
    · exact absurd hx (List.not_mem_nil x)
    · simp only [List.mem_cons, List.not_mem_nil, or_false] at hx
      rcases hx with rfl | rfl
      · decide
      · exact le_trans (extractSection_length_le _ _ _) (by norm_num)
  · split at hx
    · exact absurd hx (List.not_mem_nil x)
    · simp only [List.mem_cons, List.not_mem_nil, or_false] at hx
      rcases hx with rfl | rfl
      · decide
      · exact_mod_cast hsub _ 5000
  · split at hx
    · exact absurd hx (List.not_mem_nil x)
    · simp only [List.mem_cons, List.not_mem_nil, or_false] at hx
      rcases hx with rfl | rfl
      · decide
      · exact le_trans (by exact_mod_cast hsub _ 1500) (by norm_num)
  · split at hx
    · exact absurd hx (List.not_mem_nil x)
    · simp only [List.mem_cons, List.not_mem_nil, or_false] at hx
      rcases hx with rfl | rfl
      · decide
      · exact le_trans (by exact_mod_cast hsub _ 1500) (by norm_num)

lemma resumeSections_card (cc : List Char) :
    (resumeSections cc).length ≤ 8 := by
  simp only [resumeSections, List.length_append]
  split <;> split <;> split <;> split <;> simp

lemma extractResumeContent_section_eq (content : List Char)
    (h1 : 160000 < content.length)
    (h2 : 160000 < (cleanResumeContent content).length) :
    extractResumeContent content
      = List.intercalate "\n\n".data
          (resumeSections (cleanResumeContent content)) := by
  have hcomb : (List.intercalate ['\n', '\n']
      (resumeSections (cleanResumeContent content))).length ≤ 40000 * 4 := by
    refine le_trans (intercalate_length_le _ 5000 _
      (resumeSections_mem_le _)) ?_
    have hc := resumeSections_card (cleanResumeContent content)
    have hmul : (resumeSections (cleanResumeContent content)).length *
        (5000 + (['\n', '\n'] : List Char).length)
          ≤ 8 * (5000 + (['\n', '\n'] : List Char).length) :=
      Nat.mul_le_mul_right _ hc
    refine le_trans hmul ?_
    norm_num
  simp only [extractResumeContent]
  rw [if_neg (by omega), if_pos (by omega), if_neg (by omega)]

/-- C6 amended: in the section-aware extraction path (cleaned content over
the 160,000-character ceiling), the located education and skills sections
are each extracted with a 3,000-character cap, but only their first 1,500
characters are included in the reduced content (`substring(0, 1500)` at
resumes.ts lines 549 and 556): the `take 1500` prefix of each located
non-empty section occurs verbatim in the output. -/
theorem section_inclusion_capped_at_1500 (content : List Char)
    (h1 : 160000 < content.length)
    (h2 : 160000 < (cleanResumeContent content).length) :
    (extractEducationSection (cleanResumeContent content)).length ≤ 3000 ∧
    (extractSkillsSection (cleanResumeContent content)).length ≤ 3000 ∧
    ((extractEducationSection (cleanResumeContent content)) ≠ [] →
      (extractEducationSection (cleanResumeContent content)).take 1500
        <:+: extractResumeContent content) ∧
    ((extractSkillsSection (cleanResumeContent content)) ≠ [] →
      (extractSkillsSection (cleanResumeContent content)).take 1500
        <:+: extractResumeContent content) := by
  rw [extractResumeContent_section_eq content h1 h2]
  refine ⟨extractEducationSection_length_le _,
    extractSkillsSection_length_le _, fun hne => ?_, fun hne => ?_⟩
  · refine infix_intercalate_of_mem _ _ _ ?_
    rw [← jsSubstring_zero_1500]
    simp only [resumeSections, List.append_assoc, List.mem_append]
    refine Or.inr (Or.inr (Or.inl ?_))
    rw [if_neg (by simpa [List.isEmpty_iff] using hne)]
    simp
  · refine infix_intercalate_of_mem _ _ _ ?_
    rw [← jsSubstring_zero_1500]
    simp only [resumeSections, List.append_assoc, List.mem_append]
    refine Or.inr (Or.inr (Or.inr ?_))
    rw [if_neg (by simpa [List.isEmpty_iff] using hne)]
    simp

/-- Witness for the amended C6 at the concrete input `bigC6`: both located
sections are non-empty, and their 1,500-character prefixes occur in the
reduced content. -/
theorem section_inclusion_capped_at_1500_witness :
    (extractEducationSection (cleanResumeContent bigC6)).length ≤ 3000 ∧
    (extractSkillsSection (cleanResumeContent bigC6)).length ≤ 3000 ∧
    ((extractEducationSection (cleanResumeContent bigC6)) ≠ [] →
      (extractEducationSection (cleanResumeContent bigC6)).take 1500
        <:+: extractResumeContent bigC6) ∧
    ((extractSkillsSection (cleanResumeContent bigC6)) ≠ [] →
      (extractSkillsSection (cleanResumeContent bigC6)).take 1500
        <:+: extractResumeContent bigC6) :=
  section_inclusion_capped_at_1500 bigC6
    (by rw [bigC6_length]; norm_num)
    (by rw [cleanResumeContent_bigC6, bigC6_length]; norm_num)

end CvExplorer
